import Mathlib

/-! Typed arrays of gjstest (`gjstest/internal/cpp/typed_arrays.cc`).

A shallow embedding of the typed-array constructors that gjstest installs in
the V8 global template, followed by theorems about length coercion, the
aliasing constructor, the owning constructors and constructor dispatch.

Conventions of the embedding.

* C++ `size_t` values are natural numbers reduced modulo `2 ^ sizeBits`, where
  `sizeBits` is fixed by the build target (`Platform`).
* A script number is an exact dyadic rational, NaN or an infinity.
* A `TryCatch` is the exception it has caught, if any.
* Each `return` statement of a constructor is one constructor of `Outcome`.
-/

set_option autoImplicit false

namespace gjstest

/-! ## Build target -/

/-- The data model of the build target; it fixes the width of `size_t`. -/
inductive Platform
  | ilp32
  | lp64
deriving DecidableEq, Repr

/-- Width in bits of `size_t`. -/
def Platform.sizeBits : Platform → Nat
  | .ilp32 => 32
  | .lp64 => 64

/-- Number of values of `size_t`: arithmetic on `size_t` is modulo this. -/
def Platform.sizeModulus (p : Platform) : Nat := 2 ^ p.sizeBits

/-! ## Script values -/

/-- A script number. `finite m k` is the real number `m / 2 ^ k`; every finite
IEEE double has this form. -/
inductive Number
  | finite (mantissa : Int) (scale : Nat)
  | nan
  | infinity (negative : Bool)
deriving DecidableEq, Repr

namespace Number

/-- The integer `z` as a script number. -/
def ofInt (z : Int) : Number := .finite z 0

/-- Whether the number is finite with no fractional part. -/
def isIntegral : Number → Bool
  | .finite m k => m % (2 ^ k : Int) == 0
  | _ => false

/-- Truncation toward zero of a finite number; `0` for NaN and infinities. -/
def trunc : Number → Int
  | .finite m k => Int.tdiv m (2 ^ k)
  | _ => 0

/-- The comparison `n < z` for an integer `z` (false for NaN). -/
def ltInt : Number → Int → Bool
  | .finite m k, z => decide (m < z * 2 ^ k)
  | .nan, _ => false
  | .infinity negative, _ => negative

/-- The comparison `z < n` for an integer `z` (false for NaN). -/
def gtInt : Number → Int → Bool
  | .finite m k, z => decide (z * 2 ^ k < m)
  | .nan, _ => false
  | .infinity negative, _ => !negative

/-- ECMAScript `ToInt32` of a number: NaN and infinities give `0`; otherwise
truncate toward zero, reduce modulo `2 ^ 32` and read the result as a signed
32-bit integer. -/
def ToInt32 (n : Number) : Int :=
  let r := n.trunc % (2 ^ 32 : Int)
  if r < 2 ^ 31 then r else r - 2 ^ 32

end Number

/-- The `ExternalArrayType` tags of V8 used by this file. -/
inductive ExternalArrayType
  | kExternalByteArray
  | kExternalUnsignedByteArray
  | kExternalShortArray
  | kExternalUnsignedShortArray
  | kExternalIntArray
  | kExternalUnsignedIntArray
  | kExternalFloatArray
  | kExternalDoubleArray
deriving DecidableEq, Repr

/-- A named property of a script object with its `ReadOnly` attribute. -/
structure Property (V : Type) where
  name : String
  value : V
  readOnly : Bool

/-- A script object over values `V`.

* `props`: named properties, most recently defined first;
* `externalData`, `externalType`, `externalLength`: the arguments of
  `SetIndexedPropertiesToExternalArrayData`; `externalData = 0` is `NULL`
  (also the state of an object without external array data);
* `weakData`: the `data` parameter registered with `MakeWeak` together with
  `ExternalArrayWeakCallback`, if any;
* `arrayElements`: the elements when the object is an `Array`;
* `toNumber`: what the host `ToNumber` conversion does for this object:
  it yields a number or throws a value. -/
structure ObjectOf (V : Type) where
  props : List (Property V)
  externalData : Nat
  externalType : Option ExternalArrayType
  externalLength : Int
  weakData : Option Nat
  arrayElements : Option (List V)
  toNumber : Except V Number

/-- A script value. A string carries the result of the host string-to-number
conversion of its text. -/
inductive Value
  | undefined
  | boolean (b : Bool)
  | number (n : Number)
  | string (text : String) (numeric : Number)
  | object (o : ObjectOf Value)

/-- A script object. -/
abbrev Object := ObjectOf Value

namespace Value

/-- Model of `v8::String::New` on a message literal of this file. None of the
literals is numeric text, so the host conversion of such a string is NaN. -/
def newString (text : String) : Value := .string text .nan

/-- Model of `v8::Int32::New`. -/
def newInt32 (z : Int) : Value := .number (Number.ofInt z)

/-- Model of `v8::Value::IsObject`. -/
def IsObject : Value → Bool
  | .object _ => true
  | _ => false

/-- Model of `v8::Value::IsTrue`. -/
def IsTrue : Value → Bool
  | .boolean true => true
  | _ => false

/-- Model of `v8::Value::IsArray`. -/
def IsArray : Value → Bool
  | .object o => o.arrayElements.isSome
  | _ => false

/-- Model of `v8::Value::IsUint32`: a number that is an integer in
`[0, 2 ^ 32)`. -/
def IsUint32 : Value → Bool
  | .number n => n.isIntegral && decide (0 ≤ n.trunc) && decide (n.trunc < 2 ^ 32)
  | _ => false

/-- Model of `v8::Value::Uint32Value` on a value satisfying `IsUint32`. -/
def Uint32Value : Value → Nat
  | .number n => n.trunc.toNat
  | _ => 0

/-- Model of `v8::Value::ToNumber`: the number, or the value thrown by the
conversion. Only an object can throw (through its script-defined `valueOf`). -/
def ToNumber : Value → Except Value Number
  | .undefined => .ok .nan
  | .boolean b => .ok (Number.ofInt (if b then 1 else 0))
  | .number n => .ok n
  | .string _ numeric => .ok numeric
  | .object o => o.toNumber

end Value

/-! ## Exceptions -/

/-- A `v8::TryCatch`: the exception it has caught, if any. -/
abbrev TryCatch := Option Value

/-- Model of `TryCatch::HasCaught`. -/
def TryCatch.HasCaught (try_catch : TryCatch) : Bool := try_catch.isSome

/-- Model of `v8::ThrowException` as seen by the enclosing `TryCatch`. The
callers of `ConvertToUint` test `HasCaught` to learn that `ConvertToUint`
threw, so a thrown value is visible to the active `TryCatch`. -/
def ThrowException (exception : Value) (_try_catch : TryCatch) : TryCatch :=
  some exception

/-! ## Length coercion -/

/-- The constant `kMaxLength` of `ConvertToUint`. -/
def kMaxLength : Int := 0x3fffffff

/-- Embedding of `ConvertToUint`: the returned `size_t` and the state of the
caller's `TryCatch` on return. -/
def ConvertToUint (value_in : Value) (try_catch : TryCatch) : Nat × TryCatch :=
  if value_in.IsUint32 then
    (value_in.Uint32Value, try_catch)
  else
    -- Local<Value> number = value_in->ToNumber();
    let converted := value_in.ToNumber
    let try_catch : TryCatch :=
      match converted with
      | .error thrown => some thrown
      | .ok _ => try_catch
    if try_catch.HasCaught then (0, try_catch)
    else
      match converted with
      | .error _ => (0, try_catch)
      | .ok number =>
        -- number->ToInt32() of a number neither throws nor is empty
        let raw_value : Int := number.ToInt32
        if raw_value < 0 then
          (0, ThrowException (Value.newString "Array length must not be negative.") try_catch)
        else
          let try_catch : TryCatch :=
            if raw_value > kMaxLength then
              ThrowException (Value.newString "Array length exceeds maximum length.") try_catch
            else try_catch
          (raw_value.toNat, try_catch)

/-! ## Script objects -/

namespace ObjectOf

/-- Model of `v8::Object::New`: no properties, no external array data. The host
number conversion of a plain object is NaN. -/
def New : Object :=
  { props := [], externalData := 0, externalType := none, externalLength := 0,
    weakData := none, arrayElements := none, toNumber := .ok .nan }

/-- Model of `v8::Object::Get` on a string key: the value of the property, or
`undefined` when the object has none. The `length` of an `Array` is its number
of elements. -/
def Get (o : Object) (key : String) : Value :=
  match o.arrayElements, decide (key = "length") with
  | some elements, true => Value.newInt32 elements.length
  | _, _ =>
    match o.props.find? (fun pr => pr.name == key) with
    | some pr => pr.value
    | none => .undefined

/-- Model of `v8::Object::Set` with a property attribute: an existing
read-only property is left as it is, otherwise the property is (re)defined. -/
def Set (o : Object) (key : String) (value : Value) (readOnly : Bool) : Object :=
  match o.props.find? (fun pr => pr.name == key) with
  | some pr =>
    if pr.readOnly then o
    else
      { o with props :=
          { name := key, value := value, readOnly := readOnly } ::
            o.props.filter (fun q => !(q.name == key)) }
  | none =>
    { o with props := { name := key, value := value, readOnly := readOnly } :: o.props }

/-- Model of `v8::Object::SetIndexedPropertiesToExternalArrayData`. -/
def SetIndexedPropertiesToExternalArrayData (o : Object) (data : Nat)
    (array_type : ExternalArrayType) (number_of_elements : Int) : Object :=
  { o with externalData := data, externalType := some array_type,
           externalLength := number_of_elements }

/-- Model of `v8::Object::GetIndexedPropertiesExternalArrayData`. -/
def GetIndexedPropertiesExternalArrayData (o : Object) : Nat := o.externalData

/-- Model of `Persistent::MakeWeak(data, ExternalArrayWeakCallback)`. -/
def MakeWeak (o : Object) (data : Nat) : Object := { o with weakData := some data }

end ObjectOf

/-- The constant `kArrayBufferReferencePropName`. -/
def kArrayBufferReferencePropName : String := "_is_array_buffer_"

/-- The constant `kArrayBufferMarkerPropName`. -/
def kArrayBufferMarkerPropName : String := "_array_buffer_ref_"

/-- Conversion of a `size_t` to `int32_t` (the parameter type of `Int32::New`
and of the element count of the external array data): the low 32 bits, read as
a two's-complement number. -/
def narrowToInt32 (n : Nat) : Int :=
  let r : Int := (n : Int) % 2 ^ 32
  if r < 2 ^ 31 then r else r - 2 ^ 32

/-- Embedding of the four-argument `CreateExternalArray`. -/
def CreateExternalArray (data : Nat) (num_elements : Nat) (element_size : Nat)
    (element_type : ExternalArrayType) : Object :=
  let result := ObjectOf.New
  -- persistent.MakeWeak(data, ExternalArrayWeakCallback);
  let result := result.MakeWeak data
  let result := result.SetIndexedPropertiesToExternalArrayData data element_type
    (narrowToInt32 num_elements)
  let result := result.Set "length" (Value.newInt32 (narrowToInt32 num_elements)) true
  let result := result.Set "BYTES_PER_ELEMENT" (Value.newInt32 (narrowToInt32 element_size)) false
  result

/-- Embedding of `IsArrayBuffer`. -/
def IsArrayBuffer (val : Value) : Bool :=
  match val with
  | .object o => (o.Get kArrayBufferMarkerPropName).IsTrue
  | _ => false

/-! ## Constructor outcomes -/

/-- How a constructor ends.

* `object result`: `return result;` with a newly made object;
* `exception caught`: `return try_catch.Exception();`
* `thrown exception`: `return ThrowException(exception);`
* `fatal`: no normal return: a failed `CHECK` or a member call through an empty
  handle. -/
inductive Outcome
  | object (result : Object)
  | exception (caught : Value)
  | thrown (exception : Value)
  | fatal

/-- Embedding of `CreateExternalArrayFromArrayBuffer`. An omitted optional
argument (an empty handle) is `none`. The function returns as soon as its
`TryCatch` has caught something, so every call of `ConvertToUint` starts with
nothing caught. The subtraction `array_buffer_length - byte_offset` is reached
only when `byte_offset ≤ array_buffer_length`, where it is exact. -/
def CreateExternalArrayFromArrayBuffer (p : Platform) (element_type : ExternalArrayType)
    (element_size : Nat) (array_buffer : Object)
    (byte_offset_arg length_arg : Option Value) : Outcome :=
  -- CHECK(IsArrayBuffer(array_buffer));
  if !IsArrayBuffer (.object array_buffer) then .fatal
  else
    let array_buffer_length_property := array_buffer.Get "length"
    match ConvertToUint array_buffer_length_property none with
    | (_, some caught) => .exception caught
    | (array_buffer_length, none) =>
      let offset_conversion : Nat × TryCatch :=
        match byte_offset_arg with
        | none => (0, none)
        | some arg => ConvertToUint arg none
      match offset_conversion with
      | (_, some caught) => .exception caught
      | (byte_offset, none) =>
        if byte_offset % element_size ≠ 0 then
          .thrown (Value.newString "Offset must be a multiple of element size.")
        else if byte_offset > array_buffer_length then
          .thrown (Value.newString "Offset must be less than the array buffer length.")
        else
          let length_or_return : Except Outcome Nat :=
            match length_arg with
            | none =>
              if (array_buffer_length - byte_offset) % element_size ≠ 0 then
                .error (.thrown (Value.newString
                  ("Array buffer length minus the byte offset must be a " ++
                    "multiple of the element size")))
              else .ok ((array_buffer_length - byte_offset) / element_size)
            | some arg =>
              match ConvertToUint arg none with
              | (_, some caught) => .error (.exception caught)
              | (length, none) => .ok length
          match length_or_return with
          | .error out => out
          | .ok length =>
            if (byte_offset + (length * element_size) % p.sizeModulus) % p.sizeModulus
                > array_buffer_length then
              .thrown (Value.newString
                "length references an area beyond the end of the array buffer.")
            else
              let data := array_buffer.GetIndexedPropertiesExternalArrayData
              if data = 0 then
                .thrown (Value.newString "ArrayBuffer doesn\x27t have data.")
              else
                let result := CreateExternalArray (data + byte_offset) length element_size
                  element_type
                .object (result.Set kArrayBufferReferencePropName (.object array_buffer) true)

/-! ## Native memory -/

/-- A value of an element type `T` held in native memory. -/
inductive Elem
  | int (z : Int)
  | float (x : Number)
deriving DecidableEq, Repr

/-- The native heap.

* `brk`: the highest address handed out so far;
* `limit`: the highest address the allocator can hand out;
* `bytes`: the byte at each address;
* `stored`: the value last assigned through a typed pointer (`data[i] = v`)
  at the address of `data[i]`, if any;
* `live`: base address and size of the blocks allocated and not freed;
* `freed`: the pointers passed to `free`, most recent first. -/
structure Heap where
  brk : Nat
  limit : Nat
  bytes : Nat → Nat
  stored : Nat → Option Elem
  live : List (Nat × Nat)
  freed : List Nat

/-- Model of the C library `calloc(nmemb, size)`: `0` (`NULL`) when the product
`nmemb * size` is not representable in `size_t` or when memory is exhausted,
otherwise the base of a new block of `nmemb * size` zero bytes. Addresses
start at `1`, and a block of size `0` still has an address of its own. -/
def calloc (p : Platform) (h : Heap) (nmemb size : Nat) : Nat × Heap :=
  if p.sizeModulus ≤ nmemb * size then (0, h)
  else if h.limit < h.brk + 1 + nmemb * size then (0, h)
  else
    let base := h.brk + 1
    (base,
      { h with
        brk := base + nmemb * size
        bytes := fun a => if base ≤ a ∧ a < base + nmemb * size then 0 else h.bytes a
        stored := fun a => if base ≤ a ∧ a < base + nmemb * size then none else h.stored a
        live := (base, nmemb * size) :: h.live })

/-- The element types `T` at which the constructor templates are instantiated. -/
inductive CType
  | int8_t
  | int16_t
  | int32_t
  | uint8_t
  | uint16_t
  | uint32_t
  | float
  | double
deriving DecidableEq, Repr

/-- The C++ `sizeof(T)`. -/
def CType.sizeof : CType → Nat
  | .int8_t => 1
  | .int16_t => 2
  | .int32_t => 4
  | .uint8_t => 1
  | .uint16_t => 2
  | .uint32_t => 4
  | .float => 4
  | .double => 8

/-- Two's-complement reading of the low `bits` bits of `v`. -/
def wrapSigned (bits : Nat) (v : Int) : Int :=
  let r := v % 2 ^ bits
  if r < 2 ^ (bits - 1) then r else r - 2 ^ bits

/-- Number of binary digits of `n`, computed with `fuel` halvings at most. -/
def bitLengthAux : Nat → Nat → Nat
  | 0, _ => 0
  | fuel + 1, n => if n = 0 then 0 else bitLengthAux fuel (n / 2) + 1

/-- Number of binary digits of `n` (`0` for `0`). -/
def bitLength (n : Nat) : Nat := bitLengthAux n n

/-- The integer nearest to `v` that has at most `precision` significant bits,
ties going to the even significand: the value of an integer converted to a
binary floating-point type with that precision. -/
def roundToPrecision (precision : Nat) (v : Int) : Int :=
  let a := v.natAbs
  let bits := bitLength a
  if bits ≤ precision then v
  else
    let shift := bits - precision
    let q := a / 2 ^ shift
    let r := a % 2 ^ shift
    let half := 2 ^ (shift - 1)
    let q := if half < r ∨ (r = half ∧ q % 2 = 1) then q + 1 else q
    Int.sign v * ((q * 2 ^ shift : Nat) : Int)

/-- The C++ conversion of an `int64_t` to `T`, as in `data[i] = <int64_t>`. -/
def CType.ofInt64 (T : CType) (v : Int) : Elem :=
  match T with
  | .int8_t => .int (wrapSigned 8 v)
  | .int16_t => .int (wrapSigned 16 v)
  | .int32_t => .int (wrapSigned 32 v)
  | .uint8_t => .int (v % 2 ^ 8)
  | .uint16_t => .int (v % 2 ^ 16)
  | .uint32_t => .int (v % 2 ^ 32)
  | .float => .float (Number.ofInt (roundToPrecision 24 v))
  | .double => .float (Number.ofInt (roundToPrecision 53 v))

/-- Model of `v8::Value::ToInteger`: `none` is the empty handle returned when
the conversion threw. NaN becomes `0`, an infinity stays, a finite number is
truncated toward zero. -/
def Value.ToInteger (v : Value) : Option Number :=
  match v.ToNumber with
  | .error _ => none
  | .ok .nan => some (Number.ofInt 0)
  | .ok (.infinity negative) => some (.infinity negative)
  | .ok (.finite m k) => some (Number.ofInt (Number.trunc (.finite m k)))

/-- Model of `v8::Integer::Value`, the `static_cast<int64_t>` of the number. It
always yields a value, so the element loop has no exit here. Inside the range
of `int64_t` the value is the number itself. Outside it (an infinity, or a
magnitude of `2 ^ 63` or more) C++ does not define the result; the value taken
is `-2 ^ 63`, which the conversion instruction of x86-64 produces. -/
def Number.Int64Value : Number → Int
  | .finite m k =>
    let z := Number.trunc (.finite m k)
    if -(2 ^ 63) ≤ z ∧ z < 2 ^ 63 then z else -(2 ^ 63)
  | _ => -(2 ^ 63)

/-- The loop `for (i = 0; i < num_elements; ++i) data[i] = array->Get(i)->ToInteger()->Value();`
from index `i` on, over the remaining elements of the array; `none` when a
conversion returns an empty handle, through which `Value()` is then called. -/
def storeElements (T : CType) (data : Nat) : List Value → Nat → Heap → Option Heap
  | [], _, h => some h
  | v :: rest, i, h =>
    match v.ToInteger with
    | none => none
    | some integer =>
      storeElements T data rest (i + 1)
        { h with stored := fun a =>
            if a = data + i * T.sizeof then some (T.ofInt64 integer.Int64Value)
            else h.stored a }

/-! ## Owning constructors -/

/-- Embedding of `CreateExternalArrayWithLengthArg`. -/
def CreateExternalArrayWithLengthArg (p : Platform) (h : Heap)
    (element_type : ExternalArrayType) (element_size : Nat) (length_arg : Value) :
    Outcome × Heap :=
  -- CHECK(element_size);
  if element_size = 0 then (.fatal, h)
  else
    match ConvertToUint length_arg none with
    | (_, some caught) => (.exception caught, h)
    | (length, none) =>
      match calloc p h length element_size with
      | (0, h1) => (.thrown (Value.newString "Memory allocation failed."), h1)
      | (data, h1) => (.object (CreateExternalArray data length element_size element_type), h1)

/-- Model of `Arguments::operator[]`: `undefined` beyond the last argument. -/
def argument (args : List Value) (i : Nat) : Value := args.getD i .undefined

/-- The statement `result->ToObject()->Set(name, True(), ReadOnly)` of
`CreateArrayBuffer`, applied to what `CreateExternalArrayWithLengthArg`
returned. An object gets the marker. A returned exception that is a string,
number or boolean is wrapped by `ToObject` in a temporary object, which gets
the marker and is dropped. `ToObject` of `undefined`, which is also the handle
that `ThrowException` returns, is the empty handle, and `Set` is then called
through it. -/
def markAsArrayBuffer : Outcome → Outcome
  | .object result => .object (result.Set kArrayBufferMarkerPropName (.boolean true) true)
  | .exception (.object thrown) =>
    .exception (.object (thrown.Set kArrayBufferMarkerPropName (.boolean true) true))
  | .exception .undefined => .fatal
  | .exception caught => .exception caught
  | .thrown _ => .fatal
  | .fatal => .fatal

/-- Embedding of `CreateArrayBuffer`. -/
def CreateArrayBuffer (p : Platform) (h : Heap) (args : List Value) : Outcome × Heap :=
  let num_args := args.length
  if num_args ≠ 1 then
    (.thrown (Value.newString "Expected exactly one argument."), h)
  else
    let element_type := ExternalArrayType.kExternalByteArray
    let element_size := 1
    let (result, h1) :=
      CreateExternalArrayWithLengthArg p h element_type element_size (argument args 0)
    (markAsArrayBuffer result, h1)

/-- Embedding of the template `CreateExternalArrayWithArrayArg<T>`. The
elements of `array` are those of the `Array` handle (none when the object is
not an `Array`). -/
def CreateExternalArrayWithArrayArg (p : Platform) (h : Heap) (T : CType)
    (element_type : ExternalArrayType) (array : Object) : Outcome × Heap :=
  let elements := array.arrayElements.getD []
  let element_size := T.sizeof
  -- const uint32_t num_elements = array->Length();
  let num_elements := elements.length % 2 ^ 32
  match calloc p h num_elements element_size with
  | (0, h1) => (.thrown (Value.newString "Memory allocation failed."), h1)
  | (data, h1) =>
    match storeElements T data (elements.take num_elements) 0 h1 with
    | none => (.fatal, h1)
    | some h2 => (.object (CreateExternalArray data num_elements element_size element_type), h2)

/-! ## Constructor dispatch -/

/-- Embedding of the template `CreateExternalArray<T>(args, element_type)`,
the common constructor of all typed arrays. -/
def CreateExternalArrayT (p : Platform) (h : Heap) (T : CType) (args : List Value)
    (element_type : ExternalArrayType) : Outcome × Heap :=
  let element_size := T.sizeof
  let num_args := args.length
  -- CHECK(element_size == 1 || ... || element_size == 8) holds for every T
  if num_args = 0 then
    (.thrown (Value.newString "Expected at least one argument."), h)
  else if IsArrayBuffer (argument args 0) then
    if num_args > 3 then
      (.thrown (Value.newString
        "Array constructor from ArrayBuffer must have 1-3 parameters."), h)
    else
      match argument args 0 with
      | .object array_buffer =>
        (CreateExternalArrayFromArrayBuffer p element_type element_size array_buffer
          (if num_args > 1 then some (argument args 1) else none)
          (if num_args > 2 then some (argument args 2) else none), h)
      | _ => (.fatal, h)
  else if num_args ≠ 1 then
    (.thrown (Value.newString "Expected exactly one argument."), h)
  else
    match argument args 0 with
    | .object array =>
      if (Value.object array).IsArray then
        CreateExternalArrayWithArrayArg p h T element_type array
      else
        CreateExternalArrayWithLengthArg p h element_type element_size (argument args 0)
    | _ => CreateExternalArrayWithLengthArg p h element_type element_size (argument args 0)

/-- The exported constructors and the instantiation each one uses. -/
def Int8Array (p : Platform) (h : Heap) (args : List Value) : Outcome × Heap :=
  CreateExternalArrayT p h .int8_t args .kExternalByteArray

/-- Exported constructor `Int16Array`. -/
def Int16Array (p : Platform) (h : Heap) (args : List Value) : Outcome × Heap :=
  CreateExternalArrayT p h .int16_t args .kExternalShortArray

/-- Exported constructor `Int32Array`. -/
def Int32Array (p : Platform) (h : Heap) (args : List Value) : Outcome × Heap :=
  CreateExternalArrayT p h .int32_t args .kExternalIntArray

/-- Exported constructor `Uint8Array`. -/
def Uint8Array (p : Platform) (h : Heap) (args : List Value) : Outcome × Heap :=
  CreateExternalArrayT p h .uint8_t args .kExternalUnsignedByteArray

/-- Exported constructor `Uint16Array`. -/
def Uint16Array (p : Platform) (h : Heap) (args : List Value) : Outcome × Heap :=
  CreateExternalArrayT p h .uint16_t args .kExternalUnsignedShortArray

/-- Exported constructor `Uint32Array`. -/
def Uint32Array (p : Platform) (h : Heap) (args : List Value) : Outcome × Heap :=
  CreateExternalArrayT p h .uint32_t args .kExternalUnsignedIntArray

/-- Exported constructor `Float32Array`. -/
def Float32Array (p : Platform) (h : Heap) (args : List Value) : Outcome × Heap :=
  CreateExternalArrayT p h .float args .kExternalFloatArray

/-- Exported constructor `Float64Array`. -/
def Float64Array (p : Platform) (h : Heap) (args : List Value) : Outcome × Heap :=
  CreateExternalArrayT p h .double args .kExternalDoubleArray

/-- Exported constructor `ArrayBuffer`. -/
def ArrayBuffer (p : Platform) (h : Heap) (args : List Value) : Outcome × Heap :=
  CreateArrayBuffer p h args

/-- A heap with nothing allocated and room for `capacity` bytes. -/
def Heap.empty (capacity : Nat) : Heap :=
  { brk := 0, limit := capacity, bytes := fun _ => 0, stored := fun _ => none,
    live := [], freed := [] }

/-! ## Dispatch as the specification words it -/

/-- The outcomes that constructor dispatch chooses between. -/
inductive DispatchForm
  | noArguments
  | bufferAliasing
  | aliasingArity
  | argumentCount
  | sourceSequence
  | explicitLength
deriving DecidableEq, Repr

/-- Constructor dispatch in the words of the specification: which outcome an
argument list selects. -/
def specDispatch (args : List Value) : DispatchForm :=
  match args with
  | [] => .noArguments
  | first :: rest =>
    if IsArrayBuffer first then
      if (first :: rest).length ≤ 3 then .bufferAliasing else .aliasingArity
    else if (first :: rest).length > 1 then .argumentCount
    else if first.IsArray then .sourceSequence
    else .explicitLength

/-- What each outcome of dispatch does, in the words of the specification. The
optional byte offset and length are the second and third arguments when they
are present. -/
def DispatchForm.run (p : Platform) (h : Heap) (T : CType) (args : List Value)
    (element_type : ExternalArrayType) : DispatchForm → Outcome × Heap
  | .noArguments => (.thrown (Value.newString "Expected at least one argument."), h)
  | .bufferAliasing =>
    match args.head? with
    | some (.object array_buffer) =>
      (CreateExternalArrayFromArrayBuffer p element_type T.sizeof array_buffer
        (args.get? 1) (args.get? 2), h)
    | _ => (.fatal, h)
  | .aliasingArity =>
    (.thrown (Value.newString
      "Array constructor from ArrayBuffer must have 1-3 parameters."), h)
  | .argumentCount => (.thrown (Value.newString "Expected exactly one argument."), h)
  | .sourceSequence =>
    match args.head? with
    | some (.object array) => CreateExternalArrayWithArrayArg p h T element_type array
    | _ => (.fatal, h)
  | .explicitLength =>
    match args.head? with
    | some first => CreateExternalArrayWithLengthArg p h element_type T.sizeof first
    | none => (.fatal, h)

/-! ## Reclaim protocol -/

/-- Model of the C library `free` on a non-null pointer: the pointer is recorded
and the block based at it, if any, is no longer live. -/
def free (h : Heap) (ptr : Nat) : Heap :=
  { h with freed := ptr :: h.freed, live := h.live.filter (fun block => block.1 ≠ ptr) }

/-- Embedding of `ExternalArrayWeakCallback`. The persistent handle `val` is the
object it refers to; `val.Dispose()` removes the weak registration. The result
is the object after the call and the heap after the call. -/
def ExternalArrayWeakCallback (val : Object) (data : Nat) (h : Heap) : Object × Heap :=
  -- const Handle<Object> object = val->ToObject();
  let object := val
  let buffer_reference := object.Get kArrayBufferReferencePropName
  let h1 := if data ≠ 0 ∧ buffer_reference.IsObject = false then free h data else h
  -- val.Dispose();
  ({ val with weakData := none }, h1)

/-- The host collecting an object: the callback registered with `MakeWeak` is
invoked with the registered `data`; an object without a weak registration has
no callback. -/
def collect (o : Object) (h : Heap) : Object × Heap :=
  match o.weakData with
  | some data => ExternalArrayWeakCallback o data h
  | none => (o, h)

/-- The host collecting the objects of a list, first to last. -/
def collectAll : List Object → Heap → Heap
  | [], h => h
  | o :: rest, h => collectAll rest (collect o h).2

/-- The pointer that collecting an object passes to `free`, if any. -/
def freedBy (o : Object) : Option Nat :=
  match o.weakData with
  | some data =>
    if data ≠ 0 ∧ (o.Get kArrayBufferReferencePropName).IsObject = false then some data
    else none
  | none => none

/-- The constructors that `ExportTypedArrays` installs. -/
inductive Constructor
  | ArrayBuffer
  | Int8Array
  | Int16Array
  | Int32Array
  | Uint8Array
  | Uint16Array
  | Uint32Array
  | Float32Array
  | Float64Array
deriving DecidableEq, Repr

/-- A script call of an installed constructor. -/
def Constructor.call (p : Platform) (h : Heap) (args : List Value) :
    Constructor → Outcome × Heap
  | .ArrayBuffer => gjstest.ArrayBuffer p h args
  | .Int8Array => gjstest.Int8Array p h args
  | .Int16Array => gjstest.Int16Array p h args
  | .Int32Array => gjstest.Int32Array p h args
  | .Uint8Array => gjstest.Uint8Array p h args
  | .Uint16Array => gjstest.Uint16Array p h args
  | .Uint32Array => gjstest.Uint32Array p h args
  | .Float32Array => gjstest.Float32Array p h args
  | .Float64Array => gjstest.Float64Array p h args

/-- A run of constructor calls, first to last: the objects that the successful
calls returned, in call order, and the final heap. A call that fails with an
exception returns no object and the run goes on; `none` when a call does not
return at all. -/
def runCalls (p : Platform) : List (Constructor × List Value) → Heap →
    Option (List Object × Heap)
  | [], h => some ([], h)
  | (c, args) :: rest, h =>
    match c.call p h args with
    | (.object o, h1) =>
      match runCalls p rest h1 with
      | some (objects, h2) => some (o :: objects, h2)
      | none => none
    | (.fatal, _) => none
    | (_, h1) => runCalls p rest h1

/-- What one constructor call may do to the heap, by its outcome: a call that does
not return is unconstrained; a call that fails leaves the heap as it was; a call
that returns an object either leaves the heap as it was and returns an object
whose collection frees nothing, or allocates one new block based at `brk + 1`
and returns the object whose collection frees that base. -/
def CallEffect (h : Heap) (out : Outcome) (h1 : Heap) : Prop :=
  match out with
  | .fatal => True
  | .object o =>
    (h1 = h ∧ freedBy o = none) ∨
    (∃ size, freedBy o = some (h.brk + 1) ∧ h1.live = (h.brk + 1, size) :: h.live ∧
      h1.freed = h.freed ∧ h.brk + 1 ≤ h1.brk)
  | _ => h1 = h

/-! ## Sample inputs -/

/-- The object of an outcome; a fresh object when the outcome carries none. -/
def Outcome.toObject : Outcome → Object
  | .object result => result
  | _ => ObjectOf.New

/-- An empty heap with room for 1024 bytes. -/
def sampleHeap : Heap := Heap.empty 1024

/-- The object that `new ArrayBuffer(8)` returns on `sampleHeap`. -/
def sampleBuffer (p : Platform) : Object :=
  (ArrayBuffer p sampleHeap [Value.newInt32 8]).1.toObject

/-- The heap after `new ArrayBuffer(8)` on `sampleHeap`. -/
def sampleBufferHeap (p : Platform) : Heap :=
  (ArrayBuffer p sampleHeap [Value.newInt32 8]).2

/-- The script array `[1.5, 2.5, 3.5]`. -/
def sampleArray : Object :=
  { ObjectOf.New with
    arrayElements := some
      [.number (.finite 3 1), .number (.finite 5 1), .number (.finite 7 1)] }

/-- The aliasing view that `new Uint8Array(buffer, 0, 4)` returns over
`sampleBuffer`. -/
def sampleView (p : Platform) : Object :=
  (Uint8Array p (sampleBufferHeap p) [.object (sampleBuffer p), Value.newInt32 0,
    Value.newInt32 4]).1.toObject

/-- A script object whose `valueOf` throws the value `thrown`, so that the host
number conversion of the object throws it. -/
def throwingObject (thrown : Value) : Object :=
  { ObjectOf.New with toNumber := .error thrown }

/-- A script error object: a plain object, as made by `new Error(...)`. -/
def sampleError : Object :=
  ObjectOf.New.Set "message" (Value.newString "boom") false

/-- The script array `[Infinity, 1e19]`: both elements lie outside the range of
`int64_t`. -/
def sampleUnboundedArray : Object :=
  { ObjectOf.New with
    arrayElements := some
      [.number (.infinity false), .number (Number.ofInt 10000000000000000000)] }

/-- The script calls `new ArrayBuffer(8)`, `new Int16Array(buffer, 0, 4)` over that
buffer, `new Uint8Array(4)`, `new Uint8Array(-1)` (which fails) and
`new Uint8Array([Infinity, 1e19])`. -/
def sampleCalls : List (Constructor × List Value) :=
  [(.ArrayBuffer, [Value.newInt32 8]),
   (.Int16Array, [.object (sampleBuffer .lp64), Value.newInt32 0, Value.newInt32 4]),
   (.Uint8Array, [Value.newInt32 4]),
   (.Uint8Array, [Value.newInt32 (-1)]),
   (.Uint8Array, [.object sampleUnboundedArray])]

/-- The object that `new ArrayBuffer(2147483648)` returns on a heap with room for
`2 ^ 33` bytes. -/
def largeBuffer : Object :=
  (ArrayBuffer .lp64 (Heap.empty (2 ^ 33)) [.number (Number.ofInt 2147483648)]).1.toObject

/-- The heap after `new ArrayBuffer(2147483648)`. -/
def largeBufferHeap : Heap :=
  (ArrayBuffer .lp64 (Heap.empty (2 ^ 33)) [.number (Number.ofInt 2147483648)]).2

/-- The objects that `sampleCalls` returns on `sampleHeap`. -/
def sampleRunObjects : List Object :=
  ((runCalls .lp64 sampleCalls sampleHeap).getD ([], sampleHeap)).1

/-- The heap after `sampleCalls` on `sampleHeap`. -/
def sampleRunHeap : Heap :=
  ((runCalls .lp64 sampleCalls sampleHeap).getD ([], sampleHeap)).2

/-- The integers `300`, `-1` and `5`. -/
def sampleIntegers : List Int := [300, -1, 5]

/-- The script array `[300, -1, 5]`. -/
def sampleIntegerArray : Object :=
  { ObjectOf.New with
    arrayElements := some (sampleIntegers.map (fun z => Value.number (Number.ofInt z))) }

/-! ## Arithmetic of number conversion -/

/-- Powers of two are positive integers. -/
theorem two_pow_pos_int (k : Nat) : (0 : Int) < 2 ^ k := by positivity

/-- A finite number in `[-2 ^ 31, -1]` truncates to an integer in that range. -/
theorem Number.trunc_of_negative (m : Int) (k : Nat)
    (hlo : -(2 ^ 31) * 2 ^ k ≤ m) (hhi : m ≤ -(2 ^ k)) :
    -(2 ^ 31) ≤ Number.trunc (.finite m k) ∧ Number.trunc (.finite m k) ≤ -1 := by
  have hd : (0 : Int) < 2 ^ k := two_pow_pos_int k
  obtain ⟨a, rfl⟩ : ∃ a : Int, m = -a := ⟨-m, by simp⟩
  have ha : (2 : Int) ^ k ≤ a := by linarith
  have ha0 : 0 ≤ a := le_trans hd.le ha
  have htr : Number.trunc (.finite (-a) k) = -(a / 2 ^ k) := by
    simp only [Number.trunc, Int.neg_tdiv]
    rw [Int.tdiv_eq_ediv ha0 hd.le]
  rw [htr]
  have h1 : 1 ≤ a / 2 ^ k := by
    rw [Int.le_ediv_iff_mul_le hd]; linarith
  have h2 : a / 2 ^ k ≤ 2 ^ 31 := by
    apply Int.ediv_le_of_le_mul hd; linarith
  constructor <;> linarith

/-- `ToInt32` leaves a number alone whose truncation is a signed 32-bit integer. -/
theorem Number.ToInt32_of_int32 (n : Number) (hlo : -(2 ^ 31) ≤ n.trunc) (hhi : n.trunc < 2 ^ 31) :
    n.ToInt32 = n.trunc := by
  unfold Number.ToInt32
  by_cases hneg : n.trunc < 0
  · have hr : n.trunc % (2 ^ 32 : Int) = n.trunc + 2 ^ 32 := by
      rw [← Int.add_mul_emod_self_left n.trunc (2 ^ 32) 1]
      apply Int.emod_eq_of_lt <;> omega
    simp only [hr]
    rw [if_neg (by omega)]; omega
  · have hr : n.trunc % (2 ^ 32 : Int) = n.trunc := by
      apply Int.emod_eq_of_lt <;> omega
    simp only [hr]
    rw [if_pos hhi]

/-- The first `return` of `ConvertToUint`: a value that is a `Uint32` is returned as it
is, with no range check and no change to the `TryCatch`. -/
theorem ConvertToUint_of_uint32 (value_in : Value) (try_catch : TryCatch)
    (h : value_in.IsUint32 = true) :
    ConvertToUint value_in try_catch = (value_in.Uint32Value, try_catch) := by
  unfold ConvertToUint
  rw [if_pos h]

/-- The general conversion path of `ConvertToUint` for a value that is not a `Uint32`
and whose number conversion does not throw. Above `kMaxLength` the exception is
thrown and the raw value is still returned. -/
theorem ConvertToUint_of_number (value_in : Value) (number : Number)
    (hfast : value_in.IsUint32 = false) (hnum : value_in.ToNumber = .ok number) :
    ConvertToUint value_in none =
      if number.ToInt32 < 0 then
        (0, some (Value.newString "Array length must not be negative."))
      else if number.ToInt32 > kMaxLength then
        (number.ToInt32.toNat, some (Value.newString "Array length exceeds maximum length."))
      else (number.ToInt32.toNat, none) := by
  unfold ConvertToUint
  simp only [hfast, hnum, TryCatch.HasCaught, ThrowException, Option.isSome]
  by_cases h1 : number.ToInt32 < 0
  · simp [h1]
  · by_cases h2 : number.ToInt32 > kMaxLength
    · simp [h1, h2]
    · simp [h1, h2]

/-- A value whose number conversion truncates below zero is not a `Uint32`. -/
theorem IsUint32_of_negative (value_in : Value) (number : Number)
    (hnum : value_in.ToNumber = .ok number) (hneg : number.trunc < 0) :
    value_in.IsUint32 = false := by
  cases value_in with
  | number n =>
    simp only [Value.ToNumber, Except.ok.injEq] at hnum
    subst hnum
    simp only [Value.IsUint32, Bool.and_eq_false_imp, Bool.and_eq_true, decide_eq_true_eq,
      decide_eq_false_iff_not]
    intro h; omega
  | _ => rfl

/-- Claim C6, as amended. For every script value whose number conversion `v`
satisfies `-2 ^ 31 ≤ v ≤ -1` (an integer or not; `v` is `m / 2 ^ k`),
`ConvertToUint` throws "Array length must not be negative." and returns `0`. -/
theorem ConvertToUint_rejects_negative (value_in : Value) (m : Int) (k : Nat)
    (hnum : value_in.ToNumber = .ok (.finite m k))
    (hlo : -(2 ^ 31) * 2 ^ k ≤ m) (hhi : m ≤ -(2 ^ k)) :
    ConvertToUint value_in none =
      (0, some (Value.newString "Array length must not be negative.")) := by
  obtain ⟨h1, h2⟩ := Number.trunc_of_negative m k hlo hhi
  have hfast := IsUint32_of_negative value_in _ hnum (by omega)
  rw [ConvertToUint_of_number value_in _ hfast hnum,
    Number.ToInt32_of_int32 _ h1 (by omega), if_pos (by omega)]

/-- Claim C7. For every integer `n` with `0 ≤ n ≤ 2 ^ 30 - 1`, `ConvertToUint`
applied to the number `n` returns exactly `n` and no exception is pending; this
covers `0` and `2 ^ 30 - 1`. -/
theorem ConvertToUint_accepts_valid_length (n : Nat) (hn : n ≤ 2 ^ 30 - 1) :
    ConvertToUint (.number (Number.ofInt n)) none = (n, none) := by
  have htr : (Number.finite (n : Int) 0).trunc = n := by
    simp [Number.trunc]
  have h : (Value.number (Number.finite (n : Int) 0)).IsUint32 = true := by
    simp only [Value.IsUint32, htr, Number.isIntegral]
    simp
    omega
  unfold Number.ofInt
  rw [ConvertToUint_of_uint32 _ _ h]
  simp [Value.Uint32Value, htr]

/-- Whatever the value, the `size_t` that `ConvertToUint` returns is below `2 ^ 32`. -/
theorem ConvertToUint_fst_lt (value_in : Value) (try_catch : TryCatch) :
    (ConvertToUint value_in try_catch).1 < 2 ^ 32 := by
  unfold ConvertToUint
  by_cases hfast : value_in.IsUint32 = true
  · rw [if_pos hfast]
    cases value_in with
    | number n =>
      simp only [Value.IsUint32, Bool.and_eq_true, decide_eq_true_eq] at hfast
      simp only [Value.Uint32Value]
      omega
    | _ => simp [Value.IsUint32] at hfast
  · rw [if_neg hfast]
    simp only
    split
    · simp
    · split
      · simp
      · rename_i number _
        have hr : number.ToInt32 < 2 ^ 31 := by
          unfold Number.ToInt32
          have := Int.emod_lt_of_pos number.trunc (show (0 : Int) < 2 ^ 32 by norm_num)
          simp only
          split <;> omega
        split
        · simp
        · simp only
          omega

/-- A non-negative integer below `2 ^ 32` is converted to itself. -/
theorem ConvertToUint_newInt32 (n : Nat) (hn : n < 2 ^ 32) (try_catch : TryCatch) :
    ConvertToUint (Value.newInt32 n) try_catch = (n, try_catch) := by
  have htr : (Number.finite (n : Int) 0).trunc = n := by
    simp [Number.trunc]
  have h : (Value.number (Number.finite (n : Int) 0)).IsUint32 = true := by
    simp only [Value.IsUint32, htr, Number.isIntegral]
    simp
    omega
  unfold Value.newInt32 Number.ofInt
  rw [ConvertToUint_of_uint32 _ _ h]
  simp [Value.Uint32Value, htr]

/-- Where the alignment check is reached. For a buffer whose length is readable,
a byte offset that coerces to a value that is not a multiple of the element
size makes the aliasing
constructor throw "Offset must be a multiple of element size.", whatever the
length argument is (omitted, valid or not coercible) and whether or not the
offset lies inside the buffer: the alignment check comes first. -/
theorem alias_rejects_misaligned_offset (p : Platform) (element_type : ExternalArrayType)
    (element_size : Nat) (array_buffer : Object) (L : Nat) (byte_offset_arg : Value)
    (byte_offset : Nat) (length_arg : Option Value)
    (hmarker : IsArrayBuffer (.object array_buffer) = true)
    (hlength : ConvertToUint (array_buffer.Get "length") none = (L, none))
    (hoffset : ConvertToUint byte_offset_arg none = (byte_offset, none))
    (hmisaligned : byte_offset % element_size ≠ 0) :
    CreateExternalArrayFromArrayBuffer p element_type element_size array_buffer
        (some byte_offset_arg) length_arg =
      .thrown (Value.newString "Offset must be a multiple of element size.") := by
  unfold CreateExternalArrayFromArrayBuffer
  simp only [hmarker, hlength, hoffset]
  simp [hmisaligned]

/-- A `size_t` below `2 ^ 31` survives the conversion to `int32_t`. -/
theorem narrowToInt32_of_lt (n : Nat) (hn : n < 2 ^ 31) : narrowToInt32 n = n := by
  unfold narrowToInt32
  have hr : (n : Int) % 2 ^ 32 = n := by
    apply Int.emod_eq_of_lt <;> omega
  simp only [hr]
  rw [if_pos (by omega)]

/-- On both build targets `size_t` has at least 32 bits. -/
theorem sizeModulus_ge (p : Platform) : 2 ^ 32 ≤ p.sizeModulus := by
  cases p <;> simp [Platform.sizeModulus, Platform.sizeBits]

/-- Aliasing inside a buffer whose `length` property is right. For an aliasing
target with data whose `length` property is `L < 2 ^ 31`, every element size
above zero, and every offset and
count with `offset % element_size = 0` and `offset + count * element_size ≤ L`,
the aliasing constructor returns a view of `count` elements whose data pointer
is the buffer data plus `offset` and which references the buffer; the view
covers bytes `[offset, offset + count * element_size)` of the buffer. The case
`offset = L`, `count = 0` is included. -/
theorem alias_succeeds_within_bounds (p : Platform) (element_type : ExternalArrayType)
    (element_size : Nat) (array_buffer : Object) (L : Nat)
    (byte_offset_arg length_arg : Value) (byte_offset count : Nat)
    (hsize : 0 < element_size)
    (hmarker : IsArrayBuffer (.object array_buffer) = true)
    (hdata : array_buffer.externalData ≠ 0)
    (hlength : array_buffer.Get "length" = Value.newInt32 L) (hL : L < 2 ^ 31)
    (hoffset : ConvertToUint byte_offset_arg none = (byte_offset, none))
    (hcount : ConvertToUint length_arg none = (count, none))
    (haligned : byte_offset % element_size = 0)
    (hbound : byte_offset + count * element_size ≤ L) :
    ∃ view : Object,
      CreateExternalArrayFromArrayBuffer p element_type element_size array_buffer
          (some byte_offset_arg) (some length_arg) = .object view ∧
      view.externalData = array_buffer.externalData + byte_offset ∧
      view.externalLength = count ∧
      view.externalType = some element_type ∧
      view.Get "length" = Value.newInt32 count ∧
      view.Get kArrayBufferReferencePropName = .object array_buffer := by
  have hM := sizeModulus_ge p
  have hcl : count ≤ count * element_size := Nat.le_mul_of_pos_right count hsize
  have hn : narrowToInt32 count = count := narrowToInt32_of_lt count (by omega)
  have hmod : (byte_offset + (count * element_size) % p.sizeModulus) % p.sizeModulus
      = byte_offset + count * element_size := by
    have h1 : count * element_size % p.sizeModulus = count * element_size :=
      Nat.mod_eq_of_lt (by omega)
    rw [h1]
    exact Nat.mod_eq_of_lt (by omega)
  refine ⟨(CreateExternalArray (array_buffer.externalData + byte_offset) count element_size
    element_type).Set kArrayBufferReferencePropName (.object array_buffer) true, ?_, ?_⟩
  · have h1 : ¬ byte_offset > L := by omega
    have h2 : ¬ byte_offset + count * element_size > L := by omega
    unfold CreateExternalArrayFromArrayBuffer
    simp only [hmarker, hlength, ConvertToUint_newInt32 L (by omega) none, hoffset, hcount,
      hmod, ObjectOf.GetIndexedPropertiesExternalArrayData]
    simp [haligned, hdata, h1, h2]
  · simp only [CreateExternalArray, ObjectOf.New, ObjectOf.MakeWeak,
      ObjectOf.SetIndexedPropertiesToExternalArrayData, ObjectOf.Set, ObjectOf.Get,
      kArrayBufferReferencePropName, List.find?, hn]
    simp

/-- The aliasing constructor with the length omitted, for an aligned offset inside the
buffer, reduced to its two remaining checks. -/
theorem alias_omitted_length_eq (p : Platform) (element_type : ExternalArrayType)
    (element_size : Nat) (array_buffer : Object) (L : Nat)
    (byte_offset_arg : Option Value) (byte_offset : Nat)
    (hmarker : IsArrayBuffer (.object array_buffer) = true)
    (hdata : array_buffer.externalData ≠ 0)
    (hlength : array_buffer.Get "length" = Value.newInt32 L) (hL : L < 2 ^ 31)
    (hgiven : ∀ arg, byte_offset_arg = some arg → ConvertToUint arg none = (byte_offset, none))
    (homitted : byte_offset_arg = none → byte_offset = 0)
    (haligned : byte_offset % element_size = 0)
    (hle : byte_offset ≤ L) :
    CreateExternalArrayFromArrayBuffer p element_type element_size array_buffer
        byte_offset_arg none =
      if (L - byte_offset) % element_size ≠ 0 then
        .thrown (Value.newString
          "Array buffer length minus the byte offset must be a multiple of the element size")
      else
        if (byte_offset + ((L - byte_offset) / element_size * element_size) % p.sizeModulus)
            % p.sizeModulus > L then
          .thrown (Value.newString
            "length references an area beyond the end of the array buffer.")
        else
          .object ((CreateExternalArray (array_buffer.externalData + byte_offset)
            ((L - byte_offset) / element_size) element_size element_type).Set
              kArrayBufferReferencePropName (.object array_buffer) true) := by
  have h1 : ¬ byte_offset > L := by omega
  unfold CreateExternalArrayFromArrayBuffer
  simp only [hmarker, hlength, ConvertToUint_newInt32 L (by omega) none,
    ObjectOf.GetIndexedPropertiesExternalArrayData]
  cases byte_offset_arg with
  | none =>
    have h0 := homitted rfl
    subst h0
    by_cases hrem : L % element_size = 0
    · simp [hdata, hrem]
    · simp [hrem]
  | some arg =>
    simp only [hgiven arg rfl]
    by_cases hrem : (L - byte_offset) % element_size = 0
    · simp [haligned, hdata, h1, hrem]
    · simp [haligned, h1, hrem]

/-- Length inference over a buffer whose `length` property is right. With the
length omitted, for an aliasing target with data whose `length` property is
`L < 2 ^ 31` and an aligned offset `≤ L` (given or omitted), the aliasing
constructor throws its
range error exactly when `(L - offset) % element_size ≠ 0`, and otherwise
returns a view of `(L - offset) / element_size` elements at the buffer data plus
`offset`, so that `offset + element_count * element_size = L`. -/
theorem alias_infers_length (p : Platform) (element_type : ExternalArrayType)
    (element_size : Nat) (array_buffer : Object) (L : Nat)
    (byte_offset_arg : Option Value) (byte_offset : Nat)
    (hmarker : IsArrayBuffer (.object array_buffer) = true)
    (hdata : array_buffer.externalData ≠ 0)
    (hlength : array_buffer.Get "length" = Value.newInt32 L) (hL : L < 2 ^ 31)
    (hgiven : ∀ arg, byte_offset_arg = some arg → ConvertToUint arg none = (byte_offset, none))
    (homitted : byte_offset_arg = none → byte_offset = 0)
    (haligned : byte_offset % element_size = 0)
    (hle : byte_offset ≤ L) :
    ((L - byte_offset) % element_size ≠ 0 →
      CreateExternalArrayFromArrayBuffer p element_type element_size array_buffer
          byte_offset_arg none =
        .thrown (Value.newString
          "Array buffer length minus the byte offset must be a multiple of the element size")) ∧
    ((L - byte_offset) % element_size = 0 →
      ∃ view : Object,
        CreateExternalArrayFromArrayBuffer p element_type element_size array_buffer
            byte_offset_arg none = .object view ∧
        view.externalData = array_buffer.externalData + byte_offset ∧
        view.externalLength = ((L - byte_offset) / element_size : Nat) ∧
        view.Get "length" = Value.newInt32 ((L - byte_offset) / element_size : Nat) ∧
        byte_offset + (L - byte_offset) / element_size * element_size = L) := by
  have hM := sizeModulus_ge p
  have hpre := alias_omitted_length_eq p element_type element_size array_buffer L
    byte_offset_arg byte_offset hmarker hdata hlength hL hgiven homitted haligned hle
  constructor
  · intro hrem
    rw [hpre, if_pos hrem]
  · intro hrem
    have hexact : (L - byte_offset) / element_size * element_size = L - byte_offset :=
      Nat.div_mul_cancel (Nat.dvd_of_mod_eq_zero hrem)
    have hcount : (L - byte_offset) / element_size < 2 ^ 31 :=
      lt_of_le_of_lt (Nat.div_le_self _ _) (by omega)
    have hn := narrowToInt32_of_lt _ hcount
    refine ⟨(CreateExternalArray (array_buffer.externalData + byte_offset)
      ((L - byte_offset) / element_size) element_size element_type).Set
        kArrayBufferReferencePropName (.object array_buffer) true, ?_, ?_⟩
    · rw [hpre, if_neg (by simp [hrem]), hexact]
      have h1 : (L - byte_offset) % p.sizeModulus = L - byte_offset :=
        Nat.mod_eq_of_lt (by omega)
      have h2 : (byte_offset + (L - byte_offset)) % p.sizeModulus = L := by
        rw [Nat.add_sub_cancel' hle]; exact Nat.mod_eq_of_lt (by omega)
      rw [h1, h2, if_neg (by omega)]
    · simp only [CreateExternalArray, ObjectOf.New, ObjectOf.MakeWeak,
        ObjectOf.SetIndexedPropertiesToExternalArrayData, ObjectOf.Set, ObjectOf.Get,
        kArrayBufferReferencePropName, List.find?, hn]
      simp
      omega

/-- Where `size_t` has 64 bits the bound check of the aliasing constructor is
exact: whenever the coerced offset and count satisfy
`offset + count * element_size > L`, the constructor throws one of its three
range errors. -/
theorem alias_rejects_overrun_lp64 (element_type : ExternalArrayType)
    (element_size : Nat) (array_buffer : Object) (L : Nat)
    (byte_offset_arg length_arg : Value) (byte_offset count : Nat)
    (hsize : element_size ≤ 8)
    (hmarker : IsArrayBuffer (.object array_buffer) = true)
    (hlength : ConvertToUint (array_buffer.Get "length") none = (L, none))
    (hoffset : ConvertToUint byte_offset_arg none = (byte_offset, none))
    (hcount : ConvertToUint length_arg none = (count, none))
    (hover : byte_offset + count * element_size > L) :
    CreateExternalArrayFromArrayBuffer .lp64 element_type element_size array_buffer
        (some byte_offset_arg) (some length_arg) =
      .thrown (Value.newString "Offset must be a multiple of element size.") ∨
    CreateExternalArrayFromArrayBuffer .lp64 element_type element_size array_buffer
        (some byte_offset_arg) (some length_arg) =
      .thrown (Value.newString "Offset must be less than the array buffer length.") ∨
    CreateExternalArrayFromArrayBuffer .lp64 element_type element_size array_buffer
        (some byte_offset_arg) (some length_arg) =
      .thrown (Value.newString
        "length references an area beyond the end of the array buffer.") := by
  have hb1 : byte_offset < 2 ^ 32 := by
    have := ConvertToUint_fst_lt byte_offset_arg none
    rw [hoffset] at this; exact this
  have hb2 : count < 2 ^ 32 := by
    have := ConvertToUint_fst_lt length_arg none
    rw [hcount] at this; exact this
  have hprod : count * element_size ≤ 2 ^ 32 * 8 :=
    Nat.mul_le_mul (Nat.le_of_lt hb2) hsize
  have hmod : (byte_offset + (count * element_size) % Platform.lp64.sizeModulus)
      % Platform.lp64.sizeModulus = byte_offset + count * element_size := by
    have hM : Platform.lp64.sizeModulus = 2 ^ 64 := rfl
    have h1 : count * element_size % Platform.lp64.sizeModulus = count * element_size :=
      Nat.mod_eq_of_lt (by omega)
    rw [h1]
    exact Nat.mod_eq_of_lt (by omega)
  unfold CreateExternalArrayFromArrayBuffer
  simp only [hmarker, hlength, hoffset, hcount, hmod]
  by_cases h1 : byte_offset % element_size = 0
  · by_cases h2 : byte_offset > L
    · right; left
      simp [h1, h2]
    · right; right
      simp [h1, h2, hover]
  · left
    simp [h1]

/-- Claim C1 fails where `size_t` has 32 bits. For
`new Float64Array(new ArrayBuffer(8), 0, 536870912)` the product
`536870912 * 8 = 2 ^ 32` wraps to `0`, the bound check passes, and a view of
536870912 elements over the 8-byte buffer is returned although
`0 + 536870912 * 8 > 8`. -/
theorem alias_overrun_accepted_on_ilp32 :
    ∃ view : Object,
      (sampleBuffer .ilp32).Get "length" = Value.newInt32 8 ∧
      (Float64Array .ilp32 (sampleBufferHeap .ilp32)
        [.object (sampleBuffer .ilp32), Value.newInt32 0, Value.newInt32 536870912]).1
          = .object view ∧
      view.externalData = (sampleBuffer .ilp32).externalData + 0 ∧
      view.externalLength = 536870912 ∧
      0 + 536870912 * 8 > 8 :=
  ⟨_, rfl, rfl, rfl, rfl, by decide⟩

/-- A successful `calloc`: the product fits `size_t`, the block is new, its bytes are
zero and it is recorded as live. -/
theorem calloc_zeroed (p : Platform) (h h1 : Heap) (nmemb size data : Nat)
    (halloc : calloc p h nmemb size = (data, h1)) (hdata : data ≠ 0) :
    nmemb * size < p.sizeModulus ∧ data = h.brk + 1 ∧
      (∀ i, i < nmemb * size → h1.bytes (data + i) = 0) ∧
      h1.live = (data, nmemb * size) :: h.live := by
  unfold calloc at halloc
  split at halloc
  · simp only [Prod.mk.injEq] at halloc
    exact absurd halloc.1.symm hdata
  · split at halloc
    · simp only [Prod.mk.injEq] at halloc
      exact absurd halloc.1.symm hdata
    · simp only [Prod.mk.injEq] at halloc
      obtain ⟨hd, hh⟩ := halloc
      subst hh
      subst hd
      refine ⟨by omega, rfl, ?_, rfl⟩
      intro i hi
      simp only
      rw [if_pos ⟨by omega, by omega⟩]

/-- The explicit-length form for a coerced length below `2 ^ 31`, when `calloc`
succeeds: an owning view (no buffer reference, its own data registered with the
weak callback) whose element count and `length` property are the requested
length and whose `length * element_size` bytes are zero. -/
theorem explicit_length_spec (p : Platform) (h h1 : Heap) (element_type : ExternalArrayType)
    (element_size : Nat) (length_arg : Value) (length data : Nat)
    (hsize : 0 < element_size)
    (hconv : ConvertToUint length_arg none = (length, none))
    (hlt : length < 2 ^ 31)
    (halloc : calloc p h length element_size = (data, h1)) (hdata : data ≠ 0) :
    ∃ view : Object,
      CreateExternalArrayWithLengthArg p h element_type element_size length_arg
        = (.object view, h1) ∧
      view.externalData = data ∧
      view.weakData = some data ∧
      view.externalLength = length ∧
      view.Get "length" = Value.newInt32 length ∧
      view.Get kArrayBufferReferencePropName = .undefined ∧
      ∀ i, i < length * element_size → h1.bytes (data + i) = 0 := by
  have hn := narrowToInt32_of_lt length hlt
  refine ⟨CreateExternalArray data length element_size element_type, ?_, ?_⟩
  · unfold CreateExternalArrayWithLengthArg
    rw [if_neg (by omega)]
    simp only [hconv, halloc]
  · refine ⟨?_, ?_, ?_, ?_, ?_,
      (calloc_zeroed p h h1 length element_size data halloc hdata).2.2.1⟩
    all_goals
      simp only [CreateExternalArray, ObjectOf.New, ObjectOf.MakeWeak,
        ObjectOf.SetIndexedPropertiesToExternalArrayData, ObjectOf.Set, ObjectOf.Get,
        kArrayBufferReferencePropName, List.find?, hn]
      simp

/-- Claim C8 fails at a length that `ConvertToUint` accepts above the maximum.
`new Uint8Array(2147483648)`, when the allocation succeeds, returns a view whose
`length` property and element count are `-2147483648`, not the requested
length. -/
theorem explicit_length_property_wraps :
    ∃ view : Object,
      ConvertToUint (.number (Number.ofInt 2147483648)) none = (2147483648, none) ∧
      (Uint8Array .lp64 (Heap.empty (2 ^ 32)) [.number (Number.ofInt 2147483648)]).1
        = .object view ∧
      view.Get "length" = Value.newInt32 (-2147483648) ∧
      view.externalLength = -2147483648 :=
  ⟨_, rfl, rfl, rfl, rfl⟩

/-- Claim C9 fails for the floating-point kinds. `new Float64Array([1.5, 2.5, 3.5])`
returns a view of length 3 whose stored elements are `1`, `2` and `3`: every
element goes through `ToInteger` before it is stored. -/
theorem source_sequence_truncates_fractions :
    ∃ view : Object,
      (Float64Array .lp64 sampleHeap [.object sampleArray]).1 = .object view ∧
      view.Get "length" = Value.newInt32 3 ∧
      (Float64Array .lp64 sampleHeap [.object sampleArray]).2.stored view.externalData
        = some (.float (Number.ofInt 1)) ∧
      (Float64Array .lp64 sampleHeap [.object sampleArray]).2.stored (view.externalData + 8)
        = some (.float (Number.ofInt 2)) ∧
      (Float64Array .lp64 sampleHeap [.object sampleArray]).2.stored (view.externalData + 16)
        = some (.float (Number.ofInt 3)) :=
  ⟨_, rfl, rfl, rfl, rfl, rfl⟩

/-- Claim C10. For every element type and every argument list, the common
constructor does what the one outcome selected by `specDispatch` does: no
argument, `TypeError`; an aliasing target first, the buffer-aliasing form with
at most 3 arguments and `TypeError` with more; otherwise `TypeError` with more
than one argument, the source-sequence form for a single `Array`, and the
explicit-length form for any other single argument. -/
theorem constructor_dispatch (p : Platform) (h : Heap) (T : CType) (args : List Value)
    (element_type : ExternalArrayType) :
    CreateExternalArrayT p h T args element_type =
      (specDispatch args).run p h T args element_type := by
  cases args with
  | nil => rfl
  | cons first rest =>
    unfold CreateExternalArrayT specDispatch
    simp only [argument, List.length_cons, List.getD_cons_zero, Nat.add_one_ne_zero, if_false]
    by_cases hbuf : IsArrayBuffer first = true
    · simp only [hbuf, if_true]
      by_cases h3 : rest.length + 1 ≤ 3
      · have h3b : ¬ rest.length + 1 > 3 := by omega
        simp only [h3, h3b, if_true, if_false]
        cases first with
        | object array_buffer =>
          simp only [DispatchForm.run, List.head?_cons]
          cases rest with
          | nil => rfl
          | cons second rest2 =>
            cases rest2 with
            | nil => rfl
            | cons third rest3 =>
              cases rest3 with
              | nil => rfl
              | cons _ _ => simp at h3
        | _ => simp [IsArrayBuffer] at hbuf
      · have h3b : rest.length + 1 > 3 := by omega
        simp only [h3, h3b, if_true, if_false]
        rfl
    · simp only [hbuf]
      by_cases h1 : rest.length + 1 ≠ 1
      · have h1b : rest.length + 1 > 1 := by omega
        simp [h1b, DispatchForm.run]
        intro h0
        simp [h0] at h1
      · have hrest : rest = [] := by
          cases rest with
          | nil => rfl
          | cons _ _ => simp at h1
        subst hrest
        cases first with
        | object array =>
          by_cases harr : (Value.object array).IsArray = true
          · simp [harr, DispatchForm.run]
          · simp [harr, DispatchForm.run]
        | _ => simp [Value.IsArray, DispatchForm.run]

/-- A successfully constructed `ArrayBuffer` of fewer than `2 ^ 31` bytes is an aliasing
target whose `length` property is its byte length and whose data pointer is the
allocated block. -/
theorem ArrayBuffer_is_aliasing_target (p : Platform) (h h1 : Heap) (length_arg : Value)
    (L data : Nat)
    (hconv : ConvertToUint length_arg none = (L, none)) (hL : L < 2 ^ 31)
    (halloc : calloc p h L 1 = (data, h1)) (hdata : data ≠ 0) :
    ∃ buffer : Object,
      ArrayBuffer p h [length_arg] = (.object buffer, h1) ∧
      IsArrayBuffer (.object buffer) = true ∧
      buffer.externalData = data ∧
      buffer.Get "length" = Value.newInt32 L := by
  have hn := narrowToInt32_of_lt L hL
  refine ⟨(CreateExternalArray data L 1 .kExternalByteArray).Set kArrayBufferMarkerPropName
    (.boolean true) true, ?_, ?_, ?_, ?_⟩
  · unfold ArrayBuffer CreateArrayBuffer CreateExternalArrayWithLengthArg
    simp [argument, hconv, halloc, markAsArrayBuffer]
  all_goals
    simp only [IsArrayBuffer, CreateExternalArray, ObjectOf.New, ObjectOf.MakeWeak,
      ObjectOf.SetIndexedPropertiesToExternalArrayData, ObjectOf.Set, ObjectOf.Get,
      kArrayBufferMarkerPropName, List.find?, hn]
    simp [Value.IsTrue]

/-- Claim C5 fails on the first `return` of `ConvertToUint`. The number
`1073741824 = 2 ^ 30` exceeds `kMaxLength`, is a `Uint32`, and is returned as
the length with no exception pending. -/
theorem ConvertToUint_accepts_over_maximum :
    (Number.ofInt 1073741824).gtInt kMaxLength = true ∧
    (Value.number (Number.ofInt 1073741824)).IsUint32 = true ∧
    ConvertToUint (.number (Number.ofInt 1073741824)) none = (1073741824, none) :=
  ⟨rfl, rfl, rfl⟩

/-- Counterexample to claim C6 as stated. The number `-0.5` is negative, and
`ConvertToUint` returns length `0` for it with no exception. -/
theorem ConvertToUint_accepts_negative_fraction :
    (Number.finite (-1) 1).ltInt 0 = true ∧
    ConvertToUint (.number (Number.finite (-1) 1)) none = (0, none) :=
  ⟨rfl, rfl⟩

/-- Witness for claim C6 as amended: the number `-1`. -/
theorem ConvertToUint_rejects_negative_witness :
    ConvertToUint (.number (Number.ofInt (-1))) none =
      (0, some (Value.newString "Array length must not be negative.")) :=
  ConvertToUint_rejects_negative (.number (Number.ofInt (-1))) (-1) 0 rfl (by decide) (by decide)

/-- Witness for claim C7: the largest accepted length, `2 ^ 30 - 1`. -/
theorem ConvertToUint_accepts_valid_length_witness :
    1073741823 ≤ 2 ^ 30 - 1 ∧
    ConvertToUint (.number (Number.ofInt (1073741823 : Nat))) none = (1073741823, none) :=
  ⟨by decide, ConvertToUint_accepts_valid_length 1073741823 (by decide)⟩

/-- An instance: `new Int16Array(buffer, 0, 4)` over `new ArrayBuffer(8)`. -/
theorem alias_succeeds_within_bounds_witness :
    ∃ view : Object,
      CreateExternalArrayFromArrayBuffer .lp64 .kExternalShortArray 2 (sampleBuffer .lp64)
          (some (Value.newInt32 0)) (some (Value.newInt32 4)) = .object view ∧
      view.externalData = (sampleBuffer .lp64).externalData + 0 ∧
      view.externalLength = (4 : Nat) ∧
      view.externalType = some .kExternalShortArray ∧
      view.Get "length" = Value.newInt32 (4 : Nat) ∧
      view.Get kArrayBufferReferencePropName = .object (sampleBuffer .lp64) :=
  alias_succeeds_within_bounds .lp64 .kExternalShortArray 2 (sampleBuffer .lp64) 8
    (Value.newInt32 0) (Value.newInt32 4) 0 4 (by decide) rfl (by decide) rfl (by decide)
    rfl rfl rfl (by decide)

/-- An instance: `new Int32Array(buffer, 2)` over `new ArrayBuffer(8)`. -/
theorem alias_rejects_misaligned_offset_witness :
    CreateExternalArrayFromArrayBuffer .lp64 .kExternalIntArray 4 (sampleBuffer .lp64)
        (some (Value.newInt32 2)) none =
      .thrown (Value.newString "Offset must be a multiple of element size.") :=
  alias_rejects_misaligned_offset .lp64 .kExternalIntArray 4 (sampleBuffer .lp64) 8
    (Value.newInt32 2) 2 none rfl rfl rfl (by decide)

/-- An instance: `new Int16Array(buffer, 4)` over `new ArrayBuffer(8)`. -/
theorem alias_infers_length_witness :
    ((8 - 4) % 2 ≠ 0 →
      CreateExternalArrayFromArrayBuffer .lp64 .kExternalShortArray 2 (sampleBuffer .lp64)
          (some (Value.newInt32 4)) none =
        .thrown (Value.newString
          "Array buffer length minus the byte offset must be a multiple of the element size")) ∧
    ((8 - 4) % 2 = 0 →
      ∃ view : Object,
        CreateExternalArrayFromArrayBuffer .lp64 .kExternalShortArray 2 (sampleBuffer .lp64)
            (some (Value.newInt32 4)) none = .object view ∧
        view.externalData = (sampleBuffer .lp64).externalData + 4 ∧
        view.externalLength = ((8 - 4) / 2 : Nat) ∧
        view.Get "length" = Value.newInt32 ((8 - 4) / 2 : Nat) ∧
        4 + (8 - 4) / 2 * 2 = 8) :=
  alias_infers_length .lp64 .kExternalShortArray 2 (sampleBuffer .lp64) 8
    (some (Value.newInt32 4)) 4 rfl (by decide) rfl (by decide)
    (fun arg harg => by cases harg; rfl) (fun habsurd => by cases habsurd) (by decide)
    (by decide)

/-- The last steps of the aliasing constructor, once offset and length are known. -/
theorem alias_tail_object (p : Platform) (element_type : ExternalArrayType)
    (element_size : Nat) (array_buffer : Object) (L byte_offset length : Nat) (view : Object)
    (hview :
      (if (byte_offset + (length * element_size) % p.sizeModulus) % p.sizeModulus > L then
        Outcome.thrown (Value.newString
          "length references an area beyond the end of the array buffer.")
      else
        if array_buffer.GetIndexedPropertiesExternalArrayData = 0 then
          Outcome.thrown (Value.newString "ArrayBuffer doesn\x27t have data.")
        else
          Outcome.object ((CreateExternalArray
            (array_buffer.GetIndexedPropertiesExternalArrayData + byte_offset) length
              element_size element_type).Set kArrayBufferReferencePropName
                (.object array_buffer) true)) = .object view) :
    array_buffer.externalData ≠ 0 ∧
      view = (CreateExternalArray (array_buffer.externalData + byte_offset) length
        element_size element_type).Set kArrayBufferReferencePropName
          (.object array_buffer) true := by
  split at hview
  · cases hview
  · split at hview
    · cases hview
    · rename_i hdata
      simp only [Outcome.object.injEq] at hview
      exact ⟨hdata, hview.symm⟩

/-- The only `return` of the aliasing constructor that hands back an object: a new
external array over the buffer data plus the offset, with the buffer reference
set. -/
theorem alias_result_form (p : Platform) (element_type : ExternalArrayType)
    (element_size : Nat) (array_buffer : Object) (byte_offset_arg length_arg : Option Value)
    (view : Object)
    (hview : CreateExternalArrayFromArrayBuffer p element_type element_size array_buffer
      byte_offset_arg length_arg = .object view) :
    ∃ byte_offset length : Nat,
      array_buffer.externalData ≠ 0 ∧
      IsArrayBuffer (.object array_buffer) = true ∧
      view = (CreateExternalArray (array_buffer.externalData + byte_offset) length
        element_size element_type).Set kArrayBufferReferencePropName
          (.object array_buffer) true := by
  unfold CreateExternalArrayFromArrayBuffer at hview
  by_cases hm : IsArrayBuffer (.object array_buffer) = true
  swap
  · simp [hm] at hview
  simp only [hm, Bool.not_true, Bool.false_eq_true, if_false] at hview
  rcases hL : ConvertToUint (array_buffer.Get "length") none with ⟨L, tcL⟩
  rw [hL] at hview
  cases tcL with
  | some c => simp at hview
  | none =>
    simp only at hview
    have hoff : ∃ off tco, (match byte_offset_arg with
        | none => ((0 : Nat), (none : TryCatch))
        | some arg => ConvertToUint arg none) = (off, tco) := ⟨_, _, rfl⟩
    obtain ⟨off, tco, hoff⟩ := hoff
    rw [hoff] at hview
    cases tco with
    | some c => simp at hview
    | none =>
      simp only at hview
      by_cases h1 : off % element_size ≠ 0
      · rw [if_pos h1] at hview; cases hview
      rw [if_neg h1] at hview
      by_cases h2 : off > L
      · rw [if_pos h2] at hview; cases hview
      rw [if_neg h2] at hview
      cases length_arg with
      | none =>
        simp only at hview
        by_cases h3 : (L - off) % element_size ≠ 0
        · rw [if_pos h3] at hview; cases hview
        rw [if_neg h3] at hview
        simp only at hview
        obtain ⟨hd, hv⟩ := alias_tail_object p element_type element_size array_buffer L off _
          view hview
        exact ⟨off, _, hd, hm, hv⟩
      | some arg =>
        simp only at hview
        rcases hlen : ConvertToUint arg none with ⟨len, tcl⟩
        rw [hlen] at hview
        cases tcl with
        | some c => simp at hview
        | none =>
          simp only at hview
          obtain ⟨hd, hv⟩ := alias_tail_object p element_type element_size array_buffer L off
            len view hview
          exact ⟨off, len, hd, hm, hv⟩

/-- An object made by the four-argument `CreateExternalArray` has no buffer
reference, is not an aliasing target, and registers `data` with its weak
callback. -/
theorem CreateExternalArray_props (data num_elements element_size : Nat)
    (element_type : ExternalArrayType) :
    (CreateExternalArray data num_elements element_size element_type).Get
        kArrayBufferReferencePropName = .undefined ∧
    IsArrayBuffer (.object (CreateExternalArray data num_elements element_size element_type))
      = false ∧
    (CreateExternalArray data num_elements element_size element_type).weakData = some data ∧
    (CreateExternalArray data num_elements element_size element_type).externalData = data := by
  refine ⟨?_, ?_, ?_, ?_⟩
  all_goals
    simp [IsArrayBuffer, CreateExternalArray, ObjectOf.New, ObjectOf.MakeWeak,
      ObjectOf.SetIndexedPropertiesToExternalArrayData, ObjectOf.Set, ObjectOf.Get,
      kArrayBufferReferencePropName, kArrayBufferMarkerPropName, Value.IsTrue]

/-- The object that `CreateArrayBuffer` marks: an aliasing target without a buffer
reference. -/
theorem marked_buffer_props (data num_elements element_size : Nat)
    (element_type : ExternalArrayType) :
    ((CreateExternalArray data num_elements element_size element_type).Set
        kArrayBufferMarkerPropName (.boolean true) true).Get
          kArrayBufferReferencePropName = .undefined ∧
    IsArrayBuffer (.object ((CreateExternalArray data num_elements element_size
      element_type).Set kArrayBufferMarkerPropName (.boolean true) true)) = true ∧
    ((CreateExternalArray data num_elements element_size element_type).Set
        kArrayBufferMarkerPropName (.boolean true) true).weakData = some data ∧
    ((CreateExternalArray data num_elements element_size element_type).Set
        kArrayBufferMarkerPropName (.boolean true) true).externalData = data := by
  refine ⟨?_, ?_, ?_, ?_⟩
  all_goals
    simp [IsArrayBuffer, CreateExternalArray, ObjectOf.New, ObjectOf.MakeWeak,
      ObjectOf.SetIndexedPropertiesToExternalArrayData, ObjectOf.Set, ObjectOf.Get,
      kArrayBufferReferencePropName, kArrayBufferMarkerPropName, Value.IsTrue]

/-- The object that the aliasing constructor returns: it references its buffer, is not
an aliasing target, and registers its interior pointer with the weak callback. -/
theorem aliasing_view_props (data num_elements element_size : Nat)
    (element_type : ExternalArrayType) (array_buffer : Object) :
    ((CreateExternalArray data num_elements element_size element_type).Set
        kArrayBufferReferencePropName (.object array_buffer) true).Get
          kArrayBufferReferencePropName = .object array_buffer ∧
    IsArrayBuffer (.object ((CreateExternalArray data num_elements element_size
      element_type).Set kArrayBufferReferencePropName (.object array_buffer) true)) = false ∧
    ((CreateExternalArray data num_elements element_size element_type).Set
        kArrayBufferReferencePropName (.object array_buffer) true).weakData = some data ∧
    ((CreateExternalArray data num_elements element_size element_type).Set
        kArrayBufferReferencePropName (.object array_buffer) true).externalData = data := by
  refine ⟨?_, ?_, ?_, ?_⟩
  all_goals
    simp [IsArrayBuffer, CreateExternalArray, ObjectOf.New, ObjectOf.MakeWeak,
      ObjectOf.SetIndexedPropertiesToExternalArrayData, ObjectOf.Set, ObjectOf.Get,
      kArrayBufferReferencePropName, kArrayBufferMarkerPropName, Value.IsTrue]

/-- Claim C13. For every object and data pointer, `ExternalArrayWeakCallback`
frees `data` when `data` is not `NULL` and the object holds no buffer reference,
and otherwise leaves the heap as it is; in particular it frees nothing for
`NULL` and nothing for a view returned by the aliasing constructor. -/
theorem weak_callback_frees_iff (val : Object) (data : Nat) (h : Heap) :
    (data ≠ 0 ∧ (val.Get kArrayBufferReferencePropName).IsObject = false →
      (ExternalArrayWeakCallback val data h).2 = free h data ∧
      (ExternalArrayWeakCallback val data h).2.freed = data :: h.freed) ∧
    (¬ (data ≠ 0 ∧ (val.Get kArrayBufferReferencePropName).IsObject = false) →
      (ExternalArrayWeakCallback val data h).2 = h) ∧
    ((ExternalArrayWeakCallback val 0 h).2 = h) ∧
    (∀ (p : Platform) (element_type : ExternalArrayType) (element_size : Nat)
        (array_buffer : Object) (byte_offset_arg length_arg : Option Value),
      CreateExternalArrayFromArrayBuffer p element_type element_size array_buffer
          byte_offset_arg length_arg = .object val →
        (ExternalArrayWeakCallback val data h).2 = h) := by
  refine ⟨?_, ?_, ?_, ?_⟩
  · intro hc
    simp only [ExternalArrayWeakCallback, if_pos hc, free, and_self]
  · intro hc
    simp only [ExternalArrayWeakCallback, if_neg hc]
  · simp [ExternalArrayWeakCallback]
  · intro p element_type element_size array_buffer byte_offset_arg length_arg hview
    obtain ⟨off, len, _, _, hv⟩ := alias_result_form p element_type element_size array_buffer
      byte_offset_arg length_arg val hview
    have href := (aliasing_view_props (array_buffer.externalData + off) len element_size
      element_type array_buffer).1
    rw [← hv] at href
    simp [ExternalArrayWeakCallback, href, Value.IsObject]

/-- Claim C14, as amended. The callback disposes its weak handle, so collecting an
object again after it was collected invokes nothing and frees nothing, and one
collection passes at most one pointer to `free`. -/
theorem collect_is_idempotent (o : Object) (h : Heap) :
    collect (collect o h).1 (collect o h).2 = collect o h ∧
    ((collect o h).2.freed = h.freed ∨ ∃ data, (collect o h).2.freed = data :: h.freed) := by
  unfold collect
  cases hw : o.weakData with
  | none =>
    simp [hw]
  | some data =>
    simp only [ExternalArrayWeakCallback]
    refine ⟨trivial, ?_⟩
    by_cases hc : data ≠ 0 ∧ (o.Get kArrayBufferReferencePropName).IsObject = false
    · right; exact ⟨data, by rw [if_pos hc]; rfl⟩
    · left; rw [if_neg hc]

/-- Claim C11 fails: a failed coercion is handed back by `return try_catch.Exception();`
as the ordinary return value. For an argument whose `valueOf` throws an error
object, `Uint8Array` returns that error object; `Uint8Array(-1)` returns the
message string; and `ArrayBuffer` returns the error object after marking it as
an aliasing target. -/
theorem coercion_failure_returned_as_value :
    (Value.object (throwingObject (.object sampleError))).ToNumber
      = .error (.object sampleError) ∧
    (Uint8Array .lp64 sampleHeap [.object (throwingObject (.object sampleError))]).1
      = .exception (.object sampleError) ∧
    (Uint8Array .lp64 sampleHeap [Value.newInt32 (-1)]).1
      = .exception (Value.newString "Array length must not be negative.") ∧
    (∃ marked : Object,
      (ArrayBuffer .lp64 sampleHeap [.object (throwingObject (.object sampleError))]).1
        = .exception (.object marked) ∧
      IsArrayBuffer (.object marked) = true ∧
      IsArrayBuffer (.object sampleError) = false) :=
  ⟨rfl, rfl, rfl, _, rfl, rfl, rfl⟩

/-- Claim C15 fails for `BYTES_PER_ELEMENT`. The view that `new Uint8Array(4)`
returns has `BYTES_PER_ELEMENT = 1` and `length = 4`; a script assignment
changes `BYTES_PER_ELEMENT` and leaves `length` alone. -/
theorem bytes_per_element_is_writable :
    ∃ view : Object,
      (Uint8Array .lp64 sampleHeap [Value.newInt32 4]).1 = .object view ∧
      view.Get "BYTES_PER_ELEMENT" = Value.newInt32 1 ∧
      (view.Set "BYTES_PER_ELEMENT" (Value.newInt32 7) false).Get "BYTES_PER_ELEMENT"
        = Value.newInt32 7 ∧
      view.Get "length" = Value.newInt32 4 ∧
      (view.Set "length" (Value.newInt32 7) false).Get "length" = Value.newInt32 4 :=
  ⟨_, rfl, rfl, rfl, rfl, rfl⟩

/-- Claim C16 fails. When the conversion of an element throws, `ToInteger` returns an
empty handle, the loop calls `Value()` through it, and the constructor does not
return: there is no script error for the failed element. -/
theorem element_coercion_failure_is_fatal :
    (Value.object (throwingObject (.object sampleError))).ToInteger = none ∧
    (Uint8Array .lp64 sampleHeap
      [.object { ObjectOf.New with
        arrayElements := some [Value.newInt32 1,
          .object (throwingObject (.object sampleError))] }]).1 = .fatal :=
  ⟨rfl, rfl⟩

/-- Claim C19 fails. `CreateArrayBuffer` marks whatever
`CreateExternalArrayWithLengthArg` returned. When the `valueOf` of the argument
throws an aliasing view, that view comes back marked: it is a typed view that
`IsArrayBuffer` recognizes, it carries both the marker and its buffer
reference, and dispatch routes it to the aliasing form, whose result references
a view. -/
theorem view_marked_as_aliasing_target :
    ∃ marked view : Object,
      (sampleView .lp64).Get kArrayBufferReferencePropName = .object (sampleBuffer .lp64) ∧
      IsArrayBuffer (.object (sampleView .lp64)) = false ∧
      (ArrayBuffer .lp64 (sampleBufferHeap .lp64)
        [.object (throwingObject (.object (sampleView .lp64)))]).1
          = .exception (.object marked) ∧
      marked.externalData = (sampleView .lp64).externalData ∧
      IsArrayBuffer (.object marked) = true ∧
      marked.Get kArrayBufferReferencePropName = .object (sampleBuffer .lp64) ∧
      (Uint8Array .lp64 (sampleBufferHeap .lp64) [.object marked]).1 = .object view ∧
      view.Get kArrayBufferReferencePropName = .object marked :=
  ⟨_, _, rfl, rfl, rfl, rfl, rfl, rfl, rfl, rfl⟩

/-- Counterexample to claim C14 as stated. `ExternalArrayWeakCallback` invoked twice
on the sample buffer and its data pointer calls `free` on that pointer twice. -/
theorem weak_callback_twice_frees_twice :
    (sampleBuffer .lp64).weakData = some 1 ∧
    (ExternalArrayWeakCallback (sampleBuffer .lp64) 1 (sampleBufferHeap .lp64)).2.freed = [1] ∧
    (ExternalArrayWeakCallback (sampleBuffer .lp64) 1
      (ExternalArrayWeakCallback (sampleBuffer .lp64) 1 (sampleBufferHeap .lp64)).2).2.freed
        = [1, 1] :=
  ⟨rfl, rfl, rfl⟩

/-- A `calloc` that returns `NULL` leaves the heap as it was. -/
theorem calloc_null (p : Platform) (h h1 : Heap) (nmemb size : Nat)
    (halloc : calloc p h nmemb size = (0, h1)) : h1 = h := by
  unfold calloc at halloc
  split at halloc
  · simp only [Prod.mk.injEq] at halloc
    exact halloc.2.symm
  · split at halloc
    · simp only [Prod.mk.injEq] at halloc
      exact halloc.2.symm
    · simp only [Prod.mk.injEq] at halloc
      omega

/-- A `calloc` whose product does not fit `size_t` returns `NULL`. -/
theorem calloc_overflow (p : Platform) (h : Heap) (nmemb size : Nat)
    (hover : p.sizeModulus ≤ nmemb * size) : calloc p h nmemb size = (0, h) := by
  unfold calloc
  rw [if_pos hover]

/-- What a successful `calloc` does to the allocator state. -/
theorem calloc_state (p : Platform) (h h1 : Heap) (nmemb size data : Nat)
    (halloc : calloc p h nmemb size = (data, h1)) (hdata : data ≠ 0) :
    data = h.brk + 1 ∧ h1.brk = data + nmemb * size ∧ h1.freed = h.freed ∧
      h1.live = (data, nmemb * size) :: h.live := by
  unfold calloc at halloc
  split at halloc
  · simp only [Prod.mk.injEq] at halloc
    exact absurd halloc.1.symm hdata
  · split at halloc
    · simp only [Prod.mk.injEq] at halloc
      exact absurd halloc.1.symm hdata
    · simp only [Prod.mk.injEq] at halloc
      obtain ⟨hd, hh⟩ := halloc
      subst hh
      subst hd
      exact ⟨rfl, rfl, rfl, rfl⟩

/-- The element loop writes typed values only: the allocator state is untouched. -/
theorem storeElements_state (T : CType) (data : Nat) (elements : List Value) :
    ∀ (i : Nat) (h h2 : Heap), storeElements T data elements i h = some h2 →
      h2.brk = h.brk ∧ h2.limit = h.limit ∧ h2.live = h.live ∧ h2.freed = h.freed ∧
        h2.bytes = h.bytes := by
  induction elements with
  | nil =>
    intro i h h2 hs
    simp only [storeElements, Option.some.injEq] at hs
    subst hs
    exact ⟨rfl, rfl, rfl, rfl, rfl⟩
  | cons v rest ih =>
    intro i h h2 hs
    unfold storeElements at hs
    split at hs
    · cases hs
    · have hrest := ih _ _ h2 hs
      exact hrest

/-- The explicit-length form returns an object only through its last `return`. -/
theorem explicit_length_inv (p : Platform) (h h1 : Heap) (element_type : ExternalArrayType)
    (element_size : Nat) (length_arg : Value) (view : Object)
    (hview : CreateExternalArrayWithLengthArg p h element_type element_size length_arg
      = (.object view, h1)) :
    ∃ length data : Nat,
      ConvertToUint length_arg none = (length, none) ∧
      calloc p h length element_size = (data, h1) ∧ data ≠ 0 ∧
      view = CreateExternalArray data length element_size element_type := by
  unfold CreateExternalArrayWithLengthArg at hview
  split at hview
  · cases hview
  · rcases hconv : ConvertToUint length_arg none with ⟨length, tc⟩
    rw [hconv] at hview
    cases tc with
    | some c => cases hview
    | none =>
      simp only at hview
      rcases halloc : calloc p h length element_size with ⟨data, h1a⟩
      rw [halloc] at hview
      cases data with
      | zero => cases hview
      | succ d =>
        simp only [Prod.mk.injEq, Outcome.object.injEq] at hview
        obtain ⟨hv, hh⟩ := hview
        subst hh
        exact ⟨length, d + 1, rfl, halloc, by omega, hv.symm⟩

/-- The explicit-length form changes the heap only when it returns an object. -/
theorem explicit_length_failure (p : Platform) (h h1 : Heap)
    (element_type : ExternalArrayType) (element_size : Nat) (length_arg : Value)
    (out : Outcome)
    (hout : CreateExternalArrayWithLengthArg p h element_type element_size length_arg
      = (out, h1)) :
    (∃ view, out = .object view) ∨ h1 = h := by
  unfold CreateExternalArrayWithLengthArg at hout
  split at hout
  · simp only [Prod.mk.injEq] at hout
    exact Or.inr hout.2.symm
  · rcases hconv : ConvertToUint length_arg none with ⟨length, tc⟩
    rw [hconv] at hout
    cases tc with
    | some c =>
      simp only [Prod.mk.injEq] at hout
      exact Or.inr hout.2.symm
    | none =>
      simp only at hout
      rcases halloc : calloc p h length element_size with ⟨data, h1a⟩
      rw [halloc] at hout
      cases data with
      | zero =>
        simp only [Prod.mk.injEq] at hout
        right
        rw [← hout.2]
        exact calloc_null p h h1a length element_size halloc
      | succ d =>
        simp only [Prod.mk.injEq] at hout
        exact Or.inl ⟨_, hout.1.symm⟩

/-- The source-sequence form returns an object only through its last `return`. -/
theorem array_arg_inv (p : Platform) (h h2 : Heap) (T : CType)
    (element_type : ExternalArrayType) (array view : Object)
    (hview : CreateExternalArrayWithArrayArg p h T element_type array = (.object view, h2)) :
    ∃ (data : Nat) (h1 : Heap),
      calloc p h ((array.arrayElements.getD []).length % 2 ^ 32) T.sizeof = (data, h1) ∧
      data ≠ 0 ∧
      storeElements T data ((array.arrayElements.getD []).take
        ((array.arrayElements.getD []).length % 2 ^ 32)) 0 h1 = some h2 ∧
      view = CreateExternalArray data ((array.arrayElements.getD []).length % 2 ^ 32)
        T.sizeof element_type := by
  unfold CreateExternalArrayWithArrayArg at hview
  simp only at hview
  rcases halloc : calloc p h ((array.arrayElements.getD []).length % 2 ^ 32) T.sizeof
    with ⟨data, h1⟩
  rw [halloc] at hview
  cases data with
  | zero => cases hview
  | succ d =>
    simp only at hview
    cases hstore : storeElements T (d + 1) ((array.arrayElements.getD []).take
        ((array.arrayElements.getD []).length % 2 ^ 32)) 0 h1 with
    | none =>
      rw [hstore] at hview
      cases hview
    | some h2a =>
      rw [hstore] at hview
      simp only [Prod.mk.injEq, Outcome.object.injEq] at hview
      obtain ⟨hv, hh⟩ := hview
      subst hh
      exact ⟨d + 1, h1, rfl, by omega, hstore, hv.symm⟩

/-- The source-sequence form changes the heap only when it returns an object or does
not return. -/
theorem array_arg_failure (p : Platform) (h h1 : Heap) (T : CType)
    (element_type : ExternalArrayType) (array : Object) (out : Outcome)
    (hout : CreateExternalArrayWithArrayArg p h T element_type array = (out, h1)) :
    (∃ view, out = .object view) ∨ out = .fatal ∨ h1 = h := by
  unfold CreateExternalArrayWithArrayArg at hout
  simp only at hout
  rcases halloc : calloc p h ((array.arrayElements.getD []).length % 2 ^ 32) T.sizeof
    with ⟨data, h1a⟩
  rw [halloc] at hout
  cases data with
  | zero =>
    simp only [Prod.mk.injEq] at hout
    right; right
    rw [← hout.2]
    exact calloc_null p h h1a _ _ halloc
  | succ d =>
    simp only at hout
    cases hstore : storeElements T (d + 1) ((array.arrayElements.getD []).take
        ((array.arrayElements.getD []).length % 2 ^ 32)) 0 h1a with
    | none =>
      rw [hstore] at hout
      simp only [Prod.mk.injEq] at hout
      exact Or.inr (Or.inl hout.1.symm)
    | some h2a =>
      rw [hstore] at hout
      simp only [Prod.mk.injEq] at hout
      exact Or.inl ⟨_, hout.1.symm⟩

/-- Claim C17, as amended. In both owning forms, when `count * element_size`
does not fit `size_t` the constructor throws "Memory allocation failed." and
allocates nothing; when it returns a view, the product fits and the block
allocated for the view has exactly `count * element_size` bytes. -/
theorem owning_allocation_overflow (p : Platform) (h : Heap)
    (element_type : ExternalArrayType) (element_size : Nat) (length_arg : Value)
    (length : Nat) (T : CType) (array : Object)
    (hsize : 0 < element_size)
    (hconv : ConvertToUint length_arg none = (length, none)) :
    (p.sizeModulus ≤ length * element_size →
      CreateExternalArrayWithLengthArg p h element_type element_size length_arg
        = (.thrown (Value.newString "Memory allocation failed."), h)) ∧
    (∀ (view : Object) (h1 : Heap),
      CreateExternalArrayWithLengthArg p h element_type element_size length_arg
        = (.object view, h1) →
      length * element_size < p.sizeModulus ∧
        h1.live = (view.externalData, length * element_size) :: h.live) ∧
    (p.sizeModulus ≤ ((array.arrayElements.getD []).length % 2 ^ 32) * T.sizeof →
      CreateExternalArrayWithArrayArg p h T element_type array
        = (.thrown (Value.newString "Memory allocation failed."), h)) ∧
    (∀ (view : Object) (h2 : Heap),
      CreateExternalArrayWithArrayArg p h T element_type array = (.object view, h2) →
      ((array.arrayElements.getD []).length % 2 ^ 32) * T.sizeof < p.sizeModulus ∧
        h2.live = (view.externalData,
          ((array.arrayElements.getD []).length % 2 ^ 32) * T.sizeof) :: h.live) := by
  refine ⟨?_, ?_, ?_, ?_⟩
  · intro hover
    unfold CreateExternalArrayWithLengthArg
    rw [if_neg (by omega)]
    simp only [hconv, calloc_overflow p h length element_size hover]
  · intro view h1 hview
    obtain ⟨len, data, hc, halloc, hdata, hv⟩ :=
      explicit_length_inv p h h1 element_type element_size length_arg view hview
    rw [hconv] at hc
    simp only [Prod.mk.injEq, and_true] at hc
    subst hc
    obtain ⟨hfit, _, _, hlive⟩ := calloc_zeroed p h h1 length element_size data halloc hdata
    rw [hv, (CreateExternalArray_props data length element_size element_type).2.2.2]
    exact ⟨hfit, hlive⟩
  · intro hover
    unfold CreateExternalArrayWithArrayArg
    simp only [calloc_overflow p h _ T.sizeof hover]
  · intro view h2 hview
    obtain ⟨data, h1, halloc, hdata, hstore, hv⟩ :=
      array_arg_inv p h h2 T element_type array view hview
    obtain ⟨hfit, _, _, hlive⟩ := calloc_zeroed p h h1 _ T.sizeof data halloc hdata
    obtain ⟨_, _, hl, _, _⟩ := storeElements_state T data _ 0 h1 h2 hstore
    rw [hv, (CreateExternalArray_props data _ T.sizeof element_type).2.2.2, hl]
    exact ⟨hfit, hlive⟩

/-- Counterexample to claim C17 as stated. Where `size_t` has 32 bits,
`new Float64Array(536870912)` overflows the product and ends exactly as an
allocation that fails for lack of memory does, with "Memory allocation
failed.", not with a range error. -/
theorem overflow_reported_as_allocation_failure :
    Platform.ilp32.sizeModulus ≤ 536870912 * CType.double.sizeof ∧
    (Float64Array .ilp32 sampleHeap [Value.newInt32 536870912]).1
      = .thrown (Value.newString "Memory allocation failed.") ∧
    ¬ (Platform.ilp32.sizeModulus ≤ 4 * CType.uint8_t.sizeof) ∧
    (Uint8Array .ilp32 (Heap.empty 0) [Value.newInt32 4]).1
      = .thrown (Value.newString "Memory allocation failed.") :=
  ⟨by decide, rfl, by decide, rfl⟩

/-- Collecting an owning object made by `CreateExternalArray` frees its data. -/
theorem freedBy_owner (data num_elements element_size : Nat)
    (element_type : ExternalArrayType) (hdata : data ≠ 0) :
    freedBy (CreateExternalArray data num_elements element_size element_type) = some data ∧
    freedBy ((CreateExternalArray data num_elements element_size element_type).Set
      kArrayBufferMarkerPropName (.boolean true) true) = some data := by
  obtain ⟨h1, _, h3, _⟩ := CreateExternalArray_props data num_elements element_size element_type
  obtain ⟨m1, _, m3, _⟩ := marked_buffer_props data num_elements element_size element_type
  constructor
  · simp only [freedBy, h3, h1, Value.IsObject]
    simp [hdata]
  · simp only [freedBy, m3, m1, Value.IsObject]
    simp [hdata]

/-- Collecting an aliasing view frees nothing. -/
theorem freedBy_alias (data num_elements element_size : Nat)
    (element_type : ExternalArrayType) (array_buffer : Object) :
    freedBy ((CreateExternalArray data num_elements element_size element_type).Set
      kArrayBufferReferencePropName (.object array_buffer) true) = none := by
  obtain ⟨a1, _, a3, _⟩ := aliasing_view_props data num_elements element_size element_type
    array_buffer
  simp only [freedBy, a3, a1, Value.IsObject]
  simp

/-- The heap after collecting one object. -/
theorem collect_heap (o : Object) (h : Heap) :
    (collect o h).2 = match freedBy o with
      | some data => free h data
      | none => h := by
  unfold collect freedBy
  cases hw : o.weakData with
  | none => rfl
  | some data =>
    simp only [ExternalArrayWeakCallback]
    by_cases hc : data ≠ 0 ∧ (o.Get kArrayBufferReferencePropName).IsObject = false
    · rw [if_pos hc, if_pos hc]
    · rw [if_neg hc, if_neg hc]

/-- Effect of the explicit-length form on the heap. -/
theorem explicit_length_effect (p : Platform) (h h1 : Heap)
    (element_type : ExternalArrayType) (element_size : Nat) (length_arg : Value)
    (out : Outcome)
    (hout : CreateExternalArrayWithLengthArg p h element_type element_size length_arg
      = (out, h1)) :
    CallEffect h out h1 := by
  cases out with
  | fatal => trivial
  | object o =>
    obtain ⟨length, data, _, halloc, hdata, hv⟩ :=
      explicit_length_inv p h h1 element_type element_size length_arg o hout
    obtain ⟨hd, hb, hf, hl⟩ := calloc_state p h h1 length element_size data halloc hdata
    right
    refine ⟨length * element_size, ?_, ?_, hf, by omega⟩
    · rw [hv, ← hd]
      exact (freedBy_owner data length element_size element_type hdata).1
    · rw [hl, hd]
  | exception c =>
    rcases explicit_length_failure p h h1 element_type element_size length_arg _ hout
      with ⟨v, hv⟩ | hh
    · cases hv
    · exact hh
  | thrown c =>
    rcases explicit_length_failure p h h1 element_type element_size length_arg _ hout
      with ⟨v, hv⟩ | hh
    · cases hv
    · exact hh

/-- Effect of the `ArrayBuffer` constructor on the heap. -/
theorem ArrayBuffer_effect (p : Platform) (h h1 : Heap) (args : List Value) (out : Outcome)
    (hout : ArrayBuffer p h args = (out, h1)) : CallEffect h out h1 := by
  unfold ArrayBuffer CreateArrayBuffer at hout
  simp only at hout
  split at hout
  · simp only [Prod.mk.injEq] at hout
    obtain ⟨ho, hh⟩ := hout
    subst ho
    exact hh.symm
  · rcases hcall : CreateExternalArrayWithLengthArg p h .kExternalByteArray 1
      (argument args 0) with ⟨result, h1a⟩
    rw [hcall] at hout
    simp only [Prod.mk.injEq] at hout
    obtain ⟨ho, hh⟩ := hout
    subst hh
    cases result with
    | object o =>
      obtain ⟨length, data, _, halloc, hdata, hv⟩ :=
        explicit_length_inv p h h1a .kExternalByteArray 1 (argument args 0) o hcall
      obtain ⟨hd, hb, hf, hl⟩ := calloc_state p h h1a length 1 data halloc hdata
      simp only [markAsArrayBuffer] at ho
      subst ho
      right
      refine ⟨length * 1, ?_, ?_, hf, by omega⟩
      · rw [hv, ← hd]
        exact (freedBy_owner data length 1 .kExternalByteArray hdata).2
      · rw [hl, hd]
    | fatal =>
      simp only [markAsArrayBuffer] at ho
      subst ho
      trivial
    | thrown c =>
      simp only [markAsArrayBuffer] at ho
      subst ho
      trivial
    | exception c =>
      have hh : h1a = h := by
        rcases explicit_length_failure p h h1a .kExternalByteArray 1 (argument args 0) _ hcall
          with ⟨v, hv⟩ | hh
        · cases hv
        · exact hh
      cases c with
      | object e =>
        simp only [markAsArrayBuffer] at ho
        subst ho
        exact hh
      | undefined =>
        simp only [markAsArrayBuffer] at ho
        subst ho
        trivial
      | boolean b =>
        simp only [markAsArrayBuffer] at ho
        subst ho
        exact hh
      | number n =>
        simp only [markAsArrayBuffer] at ho
        subst ho
        exact hh
      | string t n =>
        simp only [markAsArrayBuffer] at ho
        subst ho
        exact hh

/-- Effect of the source-sequence form on the heap. -/
theorem array_arg_effect (p : Platform) (h h1 : Heap) (T : CType)
    (element_type : ExternalArrayType) (array : Object) (out : Outcome)
    (hout : CreateExternalArrayWithArrayArg p h T element_type array = (out, h1)) :
    CallEffect h out h1 := by
  cases out with
  | fatal => trivial
  | object o =>
    obtain ⟨data, h1a, halloc, hdata, hstore, hv⟩ :=
      array_arg_inv p h h1 T element_type array o hout
    obtain ⟨hd, hb, hf, hl⟩ := calloc_state p h h1a _ T.sizeof data halloc hdata
    obtain ⟨sb, _, sl, sf, _⟩ := storeElements_state T data _ 0 h1a h1 hstore
    right
    refine ⟨(array.arrayElements.getD []).length % 2 ^ 32 * T.sizeof, ?_, ?_,
      by rw [sf, hf], by omega⟩
    · rw [hv, ← hd]
      exact (freedBy_owner data _ T.sizeof element_type hdata).1
    · rw [sl, hl, hd]
  | exception c =>
    rcases array_arg_failure p h h1 T element_type array _ hout with ⟨v, hv⟩ | hf | hh
    · cases hv
    · cases hf
    · exact hh
  | thrown c =>
    rcases array_arg_failure p h h1 T element_type array _ hout with ⟨v, hv⟩ | hf | hh
    · cases hv
    · cases hf
    · exact hh

/-- Effect of the aliasing constructor: it never touches the heap, and the view it
returns frees nothing when collected. -/
theorem alias_effect (p : Platform) (h : Heap) (element_type : ExternalArrayType)
    (element_size : Nat) (array_buffer : Object) (byte_offset_arg length_arg : Option Value) :
    CallEffect h (CreateExternalArrayFromArrayBuffer p element_type element_size array_buffer
      byte_offset_arg length_arg) h := by
  cases hout : CreateExternalArrayFromArrayBuffer p element_type element_size array_buffer
      byte_offset_arg length_arg with
  | fatal => trivial
  | object o =>
    obtain ⟨off, len, _, _, hv⟩ := alias_result_form p element_type element_size array_buffer
      byte_offset_arg length_arg o hout
    left
    refine ⟨rfl, ?_⟩
    rw [hv]
    exact freedBy_alias _ _ _ _ _
  | exception c => rfl
  | thrown c => rfl

/-- Effect of the common typed-array constructor on the heap. -/
theorem template_effect (p : Platform) (h h1 : Heap) (T : CType) (args : List Value)
    (element_type : ExternalArrayType) (out : Outcome)
    (hout : CreateExternalArrayT p h T args element_type = (out, h1)) :
    CallEffect h out h1 := by
  unfold CreateExternalArrayT at hout
  simp only at hout
  split at hout
  · simp only [Prod.mk.injEq] at hout
    obtain ⟨ho, hh⟩ := hout
    subst ho
    exact hh.symm
  · split at hout
    · split at hout
      · simp only [Prod.mk.injEq] at hout
        obtain ⟨ho, hh⟩ := hout
        subst ho
        exact hh.symm
      · split at hout
        · simp only [Prod.mk.injEq] at hout
          obtain ⟨ho, hh⟩ := hout
          subst ho
          subst hh
          exact alias_effect p h element_type T.sizeof _ _ _
        · simp only [Prod.mk.injEq] at hout
          obtain ⟨ho, hh⟩ := hout
          subst ho
          trivial
    · split at hout
      · simp only [Prod.mk.injEq] at hout
        obtain ⟨ho, hh⟩ := hout
        subst ho
        exact hh.symm
      · split at hout
        · split at hout
          · exact array_arg_effect p h h1 T element_type _ out hout
          · exact explicit_length_effect p h h1 element_type T.sizeof _ out hout
        · exact explicit_length_effect p h h1 element_type T.sizeof _ out hout

/-- Effect of any installed constructor on the heap. -/
theorem call_effect (p : Platform) (h h1 : Heap) (c : Constructor) (args : List Value)
    (out : Outcome) (hout : c.call p h args = (out, h1)) : CallEffect h out h1 := by
  cases c with
  | ArrayBuffer => exact ArrayBuffer_effect p h h1 args out hout
  | Int8Array => exact template_effect p h h1 _ args _ out hout
  | Int16Array => exact template_effect p h h1 _ args _ out hout
  | Int32Array => exact template_effect p h h1 _ args _ out hout
  | Uint8Array => exact template_effect p h h1 _ args _ out hout
  | Uint16Array => exact template_effect p h h1 _ args _ out hout
  | Uint32Array => exact template_effect p h h1 _ args _ out hout
  | Float32Array => exact template_effect p h h1 _ args _ out hout
  | Float64Array => exact template_effect p h h1 _ args _ out hout

/-- Invariant of a run: nothing is freed, and the blocks allocated by the run are,
newest first, exactly the pointers that collecting the returned objects frees;
they are pairwise distinct and lie above the starting `brk`. -/
theorem runCalls_blocks (p : Platform) (calls : List (Constructor × List Value)) :
    ∀ (h0 h : Heap) (objects : List Object),
      runCalls p calls h0 = some (objects, h) →
        h.freed = h0.freed ∧ h0.brk ≤ h.brk ∧
        ∃ blocks : List (Nat × Nat),
          h.live = blocks ++ h0.live ∧
          blocks.map Prod.fst = (objects.filterMap freedBy).reverse ∧
          (∀ b ∈ blocks, h0.brk < b.1) ∧
          (blocks.map Prod.fst).Nodup := by
  induction calls with
  | nil =>
    intro h0 h objects hrun
    simp only [runCalls, Option.some.injEq, Prod.mk.injEq] at hrun
    obtain ⟨ho, hh⟩ := hrun
    subst ho
    subst hh
    exact ⟨rfl, le_refl _, [], rfl, rfl, by simp, by simp⟩
  | cons call rest ih =>
    intro h0 h objects hrun
    obtain ⟨c, args⟩ := call
    unfold runCalls at hrun
    rcases hcall : c.call p h0 args with ⟨out, h1⟩
    have heff := call_effect p h0 h1 c args out hcall
    rw [hcall] at hrun
    cases out with
    | fatal => cases hrun
    | exception e =>
      simp only at hrun
      have hh : h1 = h0 := heff
      subst hh
      exact ih _ _ _ hrun
    | thrown e =>
      simp only at hrun
      have hh : h1 = h0 := heff
      subst hh
      exact ih _ _ _ hrun
    | object o =>
      simp only at hrun
      cases hrest : runCalls p rest h1 with
      | none =>
        rw [hrest] at hrun
        cases hrun
      | some r =>
        obtain ⟨objects1, h2⟩ := r
        rw [hrest] at hrun
        simp only [Option.some.injEq, Prod.mk.injEq] at hrun
        obtain ⟨ho, hh⟩ := hrun
        subst ho
        subst hh
        obtain ⟨hf, hb, blocks, hl, hm, hlow, hnd⟩ := ih _ _ _ hrest
        rcases heff with ⟨hsame, hnone⟩ | ⟨size, hsome, hlive, hfreed, hbrk⟩
        · subst hsame
          refine ⟨hf, hb, blocks, hl, ?_, hlow, hnd⟩
          rw [List.filterMap_cons, hnone]
          exact hm
        · refine ⟨by rw [hf, hfreed], by omega, blocks ++ [(h0.brk + 1, size)], ?_, ?_, ?_, ?_⟩
          · rw [hl, hlive]
            simp
          · rw [List.filterMap_cons, hsome]
            simp [hm]
          · intro b hbm
            rcases List.mem_append.1 hbm with hb1 | hb2
            · have := hlow b hb1
              omega
            · simp only [List.mem_singleton] at hb2
              subst hb2
              simp
          · rw [List.map_append, List.nodup_append]
            refine ⟨hnd, by simp, ?_⟩
            intro a ha1 ha2
            simp only [List.map_cons, List.map_nil, List.mem_singleton] at ha2
            obtain ⟨b, hbm, hba⟩ := List.mem_map.1 ha1
            have := hlow b hbm
            omega

/-- The heap after collecting a list of objects: the freed pointers, most recent
first, and the blocks still live. -/
theorem collectAll_heap (order : List Object) :
    ∀ h : Heap,
      (collectAll order h).freed = (order.filterMap freedBy).reverse ++ h.freed ∧
      (collectAll order h).live
        = h.live.filter (fun b => decide (b.1 ∉ order.filterMap freedBy)) := by
  induction order with
  | nil =>
    intro h
    simp [collectAll]
  | cons o rest ih =>
    intro h
    unfold collectAll
    obtain ⟨hf, hl⟩ := ih (collect o h).2
    rw [hf, hl, collect_heap]
    cases hfb : freedBy o with
    | none => simp [hfb]
    | some d =>
      simp only [free, List.filterMap_cons, hfb, List.reverse_cons, List.append_assoc,
        List.singleton_append, List.filter_filter, true_and]
      congr 1
      funext b
      simp only [List.mem_cons, not_or, Bool.decide_and, Bool.and_comm, ne_eq]

/-- Claim C12. After any run of constructor calls from an empty heap (calls that
fail with an exception included, arguments arbitrary), collecting every returned
object once, in any order, passes to `free` exactly the bases of the blocks that
the run allocated, each once: nothing was freed during the run, the freed
pointers are a duplicate-free rearrangement of the block bases, no block stays
live, and collecting an object that holds a buffer reference frees nothing. -/
theorem finalizers_free_each_block_once (p : Platform) (capacity : Nat)
    (calls : List (Constructor × List Value)) (objects order : List Object) (h : Heap)
    (hrun : runCalls p calls (Heap.empty capacity) = some (objects, h))
    (horder : order.Perm objects) :
    h.freed = [] ∧
    (collectAll order h).freed.Perm (h.live.map Prod.fst) ∧
    (collectAll order h).freed.Nodup ∧
    (collectAll order h).live = [] ∧
    (∀ o ∈ objects, (o.Get kArrayBufferReferencePropName).IsObject = true →
      ∀ h1 : Heap, (collect o h1).2 = h1) := by
  obtain ⟨hf, _, blocks, hl, hm, _, hnd⟩ := runCalls_blocks p calls _ _ _ hrun
  have hl2 : h.live = blocks := by
    rw [hl]
    simp [Heap.empty]
  have hf2 : h.freed = [] := by
    rw [hf]
    rfl
  obtain ⟨cf, cl⟩ := collectAll_heap order h
  have hperm : ((order.filterMap freedBy).reverse).Perm (blocks.map Prod.fst) := by
    rw [hm]
    exact ((List.reverse_perm _).trans (horder.filterMap freedBy)).trans
      (List.reverse_perm _).symm
  refine ⟨hf2, ?_, ?_, ?_, ?_⟩
  · rw [cf, hf2, List.append_nil, hl2]
    exact hperm
  · rw [cf, hf2, List.append_nil]
    exact hperm.nodup_iff.2 hnd
  · rw [cl, hl2]
    apply List.filter_eq_nil_iff.2
    intro b hb
    simp only [decide_not, Bool.not_eq_true', decide_eq_false_iff_not, not_not]
    have hmem : b.1 ∈ blocks.map Prod.fst := List.mem_map.2 ⟨b, hb, rfl⟩
    have := hperm.mem_iff.2 hmem
    simpa using this
  · intro o _ href h1
    rw [collect_heap]
    have hnone : freedBy o = none := by
      unfold freedBy
      cases o.weakData with
      | none => rfl
      | some d => simp [href]
    rw [hnone]

/-- Objects returned through an object-returning `return`: a typed-array constructor
never returns an aliasing target, and the `ArrayBuffer` constructor returns an
aliasing target that holds no buffer reference. -/
theorem returned_objects_marker (p : Platform) (h h1 : Heap) (args : List Value)
    (o : Object) :
    (∀ (T : CType) (element_type : ExternalArrayType),
      CreateExternalArrayT p h T args element_type = (.object o, h1) →
        IsArrayBuffer (.object o) = false) ∧
    (ArrayBuffer p h args = (.object o, h1) →
      IsArrayBuffer (.object o) = true ∧
        o.Get kArrayBufferReferencePropName = .undefined) := by
  constructor
  · intro T element_type hout
    unfold CreateExternalArrayT at hout
    simp only at hout
    split at hout
    · cases hout
    · split at hout
      · split at hout
        · cases hout
        · split at hout
          · simp only [Prod.mk.injEq] at hout
            obtain ⟨off, len, _, _, hv⟩ := alias_result_form p element_type T.sizeof _ _ _ o
              hout.1
            rw [hv]
            exact (aliasing_view_props _ _ _ _ _).2.1
          · cases hout
      · split at hout
        · cases hout
        · have hlen : ∀ v, CreateExternalArrayWithLengthArg p h element_type T.sizeof v
              = (.object o, h1) → IsArrayBuffer (.object o) = false := by
            intro v hv
            obtain ⟨length, data, _, _, _, ho⟩ :=
              explicit_length_inv p h h1 element_type T.sizeof v o hv
            rw [ho]
            exact (CreateExternalArray_props _ _ _ _).2.1
          split at hout
          · split at hout
            · obtain ⟨data, h1a, _, _, _, ho⟩ := array_arg_inv p h h1 T element_type _ o hout
              rw [ho]
              exact (CreateExternalArray_props _ _ _ _).2.1
            · exact hlen _ hout
          · exact hlen _ hout
  · intro hout
    unfold ArrayBuffer CreateArrayBuffer at hout
    simp only at hout
    split at hout
    · cases hout
    · rcases hcall : CreateExternalArrayWithLengthArg p h .kExternalByteArray 1
        (argument args 0) with ⟨result, h1a⟩
      rw [hcall] at hout
      simp only [Prod.mk.injEq] at hout
      obtain ⟨ho, hh⟩ := hout
      subst hh
      cases result with
      | object v =>
        obtain ⟨length, data, _, _, _, hv⟩ :=
          explicit_length_inv p h h1a .kExternalByteArray 1 (argument args 0) v hcall
        simp only [markAsArrayBuffer, Outcome.object.injEq] at ho
        rw [← ho, hv]
        exact ⟨(marked_buffer_props _ _ _ _).2.1, (marked_buffer_props _ _ _ _).1⟩
      | fatal => simp [markAsArrayBuffer] at ho
      | thrown c => simp [markAsArrayBuffer] at ho
      | exception c =>
        cases c <;> simp [markAsArrayBuffer] at ho

/-- Witness for claim C12: `new ArrayBuffer(8)`, an `Int16Array` over it,
`new Uint8Array(4)`, a failing `new Uint8Array(-1)` and
`new Uint8Array([Infinity, 1e19])`, collected last to first. -/
theorem finalizers_free_each_block_once_witness :
    sampleRunHeap.freed = [] ∧
    (collectAll sampleRunObjects.reverse sampleRunHeap).freed.Perm
      (sampleRunHeap.live.map Prod.fst) ∧
    (collectAll sampleRunObjects.reverse sampleRunHeap).freed.Nodup ∧
    (collectAll sampleRunObjects.reverse sampleRunHeap).live = [] ∧
    (∀ o ∈ sampleRunObjects, (o.Get kArrayBufferReferencePropName).IsObject = true →
      ∀ h1 : Heap, (collect o h1).2 = h1) :=
  finalizers_free_each_block_once .lp64 1024 sampleCalls sampleRunObjects
    sampleRunObjects.reverse sampleRunHeap rfl (List.reverse_perm _)

/-- The sample run returns four objects (its failed call returns none) and
allocates the blocks at `1`, `10` and `15`; collecting the four objects frees
exactly these three pointers. -/
theorem sample_run_frees :
    sampleRunObjects.length = 4 ∧
    sampleRunHeap.live.map Prod.fst = [15, 10, 1] ∧
    (collectAll sampleRunObjects.reverse sampleRunHeap).freed = [1, 10, 15] :=
  ⟨rfl, rfl, rfl⟩

/-- Witness for claim C13: the sample buffer and its data pointer. -/
theorem weak_callback_frees_iff_witness :
    (1 ≠ 0 ∧ ((sampleBuffer .lp64).Get kArrayBufferReferencePropName).IsObject = false →
      (ExternalArrayWeakCallback (sampleBuffer .lp64) 1 (sampleBufferHeap .lp64)).2
        = free (sampleBufferHeap .lp64) 1 ∧
      (ExternalArrayWeakCallback (sampleBuffer .lp64) 1 (sampleBufferHeap .lp64)).2.freed
        = 1 :: (sampleBufferHeap .lp64).freed) ∧
    (¬ (1 ≠ 0 ∧ ((sampleBuffer .lp64).Get kArrayBufferReferencePropName).IsObject = false) →
      (ExternalArrayWeakCallback (sampleBuffer .lp64) 1 (sampleBufferHeap .lp64)).2
        = sampleBufferHeap .lp64) ∧
    ((ExternalArrayWeakCallback (sampleBuffer .lp64) 0 (sampleBufferHeap .lp64)).2
      = sampleBufferHeap .lp64) ∧
    (∀ (p : Platform) (element_type : ExternalArrayType) (element_size : Nat)
        (array_buffer : Object) (byte_offset_arg length_arg : Option Value),
      CreateExternalArrayFromArrayBuffer p element_type element_size array_buffer
          byte_offset_arg length_arg = .object (sampleBuffer .lp64) →
        (ExternalArrayWeakCallback (sampleBuffer .lp64) 1 (sampleBufferHeap .lp64)).2
          = sampleBufferHeap .lp64) :=
  weak_callback_frees_iff (sampleBuffer .lp64) 1 (sampleBufferHeap .lp64)

/-- Witness for claim C17 as amended: 536870912 doubles where `size_t` has 32 bits. -/
theorem owning_allocation_overflow_witness :
    (Platform.ilp32.sizeModulus ≤ 536870912 * 8 →
      CreateExternalArrayWithLengthArg .ilp32 sampleHeap .kExternalDoubleArray 8
          (Value.newInt32 536870912)
        = (.thrown (Value.newString "Memory allocation failed."), sampleHeap)) ∧
    (∀ (view : Object) (h1 : Heap),
      CreateExternalArrayWithLengthArg .ilp32 sampleHeap .kExternalDoubleArray 8
          (Value.newInt32 536870912) = (.object view, h1) →
      536870912 * 8 < Platform.ilp32.sizeModulus ∧
        h1.live = (view.externalData, 536870912 * 8) :: sampleHeap.live) ∧
    (Platform.ilp32.sizeModulus
        ≤ ((sampleArray.arrayElements.getD []).length % 2 ^ 32) * CType.double.sizeof →
      CreateExternalArrayWithArrayArg .ilp32 sampleHeap .double .kExternalDoubleArray sampleArray
        = (.thrown (Value.newString "Memory allocation failed."), sampleHeap)) ∧
    (∀ (view : Object) (h2 : Heap),
      CreateExternalArrayWithArrayArg .ilp32 sampleHeap .double .kExternalDoubleArray sampleArray
        = (.object view, h2) →
      ((sampleArray.arrayElements.getD []).length % 2 ^ 32) * CType.double.sizeof
          < Platform.ilp32.sizeModulus ∧
        h2.live = (view.externalData,
          ((sampleArray.arrayElements.getD []).length % 2 ^ 32) * CType.double.sizeof)
            :: sampleHeap.live) :=
  owning_allocation_overflow .ilp32 sampleHeap .kExternalDoubleArray 8
    (Value.newInt32 536870912) 536870912 .double sampleArray (by decide) rfl

/-- The values stored for `[300, -1, 5]`: `300` becomes `44`, and `-1` becomes `255`
in a `Uint8Array` and stays `-1` in an `Int8Array`. -/
theorem sample_integers_stored :
    (Uint8Array .lp64 sampleHeap [.object sampleIntegerArray]).2.stored 1 = some (.int 44) ∧
    (Uint8Array .lp64 sampleHeap [.object sampleIntegerArray]).2.stored 2 = some (.int 255) ∧
    (Int8Array .lp64 sampleHeap [.object sampleIntegerArray]).2.stored 2 = some (.int (-1)) ∧
    (Int8Array .lp64 sampleHeap [.object sampleIntegerArray]).2.stored 1 = some (.int 44) :=
  ⟨rfl, rfl, rfl, rfl⟩

/-- Looking up one key is not affected by removing the properties of another key. -/
theorem find_filter_other (props : List (Property Value)) (key other : String)
    (hne : key ≠ other) :
    (props.filter (fun q => !(q.name == other))).find? (fun pr => pr.name == key)
      = props.find? (fun pr => pr.name == key) := by
  induction props with
  | nil => rfl
  | cons a rest ih =>
    by_cases ha : a.name = other
    · have hk : ¬ a.name = key := fun hk => hne (hk.symm.trans ha)
      simp [List.filter_cons, List.find?_cons, ha, hk, hne.symm, ih]
    · by_cases hk : a.name = key
      · have hko : ¬ key = other := hne
        simp [List.filter_cons, List.find?_cons, ha, hk, hko]
      · simp [List.filter_cons, List.find?_cons, ha, hk, ih]

/-- Marking an object as an aliasing target, as `CreateArrayBuffer` does, does not
change what its collection frees. -/
theorem freedBy_marked (o : Object) (value : Value) (readOnly : Bool) :
    freedBy (o.Set kArrayBufferMarkerPropName value readOnly) = freedBy o := by
  have hne : kArrayBufferReferencePropName ≠ kArrayBufferMarkerPropName := by decide
  have hget : (o.Set kArrayBufferMarkerPropName value readOnly).Get
      kArrayBufferReferencePropName = o.Get kArrayBufferReferencePropName := by
    unfold ObjectOf.Set
    cases hfind : o.props.find? (fun pr => pr.name == kArrayBufferMarkerPropName) with
    | none =>
      simp only [ObjectOf.Get, List.find?_cons]
      have : ("_array_buffer_ref_" == kArrayBufferReferencePropName) = false := by decide
      simp [kArrayBufferMarkerPropName, this]
    | some pr =>
      simp only
      by_cases hro : pr.readOnly = true
      · simp [hro]
      · simp only [hro, Bool.false_eq_true, if_false, ObjectOf.Get, List.find?_cons]
        have : ("_array_buffer_ref_" == kArrayBufferReferencePropName) = false := by decide
        simp only [kArrayBufferMarkerPropName, this]
        rw [find_filter_other o.props kArrayBufferReferencePropName "_array_buffer_ref_" hne]
  have hweak : (o.Set kArrayBufferMarkerPropName value readOnly).weakData = o.weakData := by
    unfold ObjectOf.Set
    cases o.props.find? (fun pr => pr.name == kArrayBufferMarkerPropName) with
    | none => rfl
    | some pr =>
      simp only
      split <;> rfl
  unfold freedBy
  rw [hweak, hget]

/-- An element outside the range of `int64_t` does not stop the element loop:
`new Uint8Array([Infinity, 1e19])` returns a view of length 2 over a block of
2 bytes. -/
theorem unbounded_elements_return_view :
    ∃ view : Object,
      (Number.infinity false).Int64Value = -(2 ^ 63) ∧
      (Uint8Array .lp64 sampleHeap [.object sampleUnboundedArray]).1 = .object view ∧
      view.Get "length" = Value.newInt32 2 ∧
      (Uint8Array .lp64 sampleHeap [.object sampleUnboundedArray]).2.live = [(1, 2)] :=
  ⟨_, rfl, rfl, rfl, rfl⟩

/-- Claim C2 fails over a buffer of `2 ^ 31` bytes. `new ArrayBuffer(2147483648)`
is constructed (an aliasing target with data and a live block of 2147483648
bytes) but its `length` property is `-2147483648`, and the aligned, in-bounds
aliases `new Uint8Array(buffer, 0, 4)` and `new Uint8Array(buffer, 2147483648, 0)`
end with "Array length must not be negative." instead of a view. -/
theorem alias_fails_over_large_buffer :
    (ArrayBuffer .lp64 (Heap.empty (2 ^ 33)) [.number (Number.ofInt 2147483648)]).1
      = .object largeBuffer ∧
    IsArrayBuffer (.object largeBuffer) = true ∧
    largeBuffer.externalData = 1 ∧
    largeBufferHeap.live = [(1, 2147483648)] ∧
    largeBuffer.Get "length" = Value.newInt32 (-2147483648) ∧
    0 % 1 = 0 ∧ 0 + 4 * 1 ≤ 2147483648 ∧
    (Uint8Array .lp64 largeBufferHeap
      [.object largeBuffer, Value.newInt32 0, Value.newInt32 4]).1
        = .exception (Value.newString "Array length must not be negative.") ∧
    (Uint8Array .lp64 largeBufferHeap
      [.object largeBuffer, Value.newInt32 2147483648, Value.newInt32 0]).1
        = .exception (Value.newString "Array length must not be negative.") :=
  ⟨rfl, rfl, rfl, rfl, rfl, by decide, by decide, rfl, rfl⟩

/-- Claim C4 fails over a buffer of `2 ^ 31` bytes. With the count omitted, the
aligned offsets `4` (for `Int32Array`, where the remaining span divides evenly)
and `0` (for `Uint8Array`) end with "Array length must not be negative."
instead of a view of `(L - offset) / element_size` elements. -/
theorem inferred_length_over_large_buffer :
    IsArrayBuffer (.object largeBuffer) = true ∧
    largeBufferHeap.live = [(1, 2147483648)] ∧
    4 % CType.int32_t.sizeof = 0 ∧ 4 ≤ 2147483648 ∧
    (2147483648 - 4) % CType.int32_t.sizeof = 0 ∧
    (Int32Array .lp64 largeBufferHeap [.object largeBuffer, Value.newInt32 4]).1
      = .exception (Value.newString "Array length must not be negative.") ∧
    (Uint8Array .lp64 largeBufferHeap [.object largeBuffer]).1
      = .exception (Value.newString "Array length must not be negative.") :=
  ⟨rfl, rfl, by decide, by decide, by decide, rfl, rfl⟩

/-- The element loop completes whenever no element conversion throws, whatever the
numbers are (infinities and magnitudes beyond `int64_t` included). -/
theorem storeElements_completes (T : CType) (data : Nat) (elements : List Value) :
    ∀ (i : Nat) (h : Heap), (∀ v ∈ elements, v.ToInteger ≠ none) →
      ∃ h2 : Heap, storeElements T data elements i h = some h2 := by
  induction elements with
  | nil =>
    intro i h _
    exact ⟨h, rfl⟩
  | cons v rest ih =>
    intro i h hall
    have hv := hall v (List.mem_cons_self v rest)
    have hrest : ∀ w ∈ rest, w.ToInteger ≠ none :=
      fun w hw => hall w (List.mem_cons_of_mem v hw)
    unfold storeElements
    cases hint : v.ToInteger with
    | none => exact absurd hint hv
    | some integer => exact ih _ _ hrest

/-- The source-sequence form returns a view whenever the allocation succeeds and no
element conversion throws. -/
theorem array_arg_returns (p : Platform) (h h1 : Heap) (T : CType)
    (element_type : ExternalArrayType) (array : Object) (data : Nat)
    (hall : ∀ v ∈ array.arrayElements.getD [], v.ToInteger ≠ none)
    (halloc : calloc p h ((array.arrayElements.getD []).length % 2 ^ 32) T.sizeof
      = (data, h1))
    (hdata : data ≠ 0) :
    ∃ h2 : Heap,
      CreateExternalArrayWithArrayArg p h T element_type array
        = (.object (CreateExternalArray data ((array.arrayElements.getD []).length % 2 ^ 32)
            T.sizeof element_type), h2) := by
  have htake : ∀ v ∈ (array.arrayElements.getD []).take
      ((array.arrayElements.getD []).length % 2 ^ 32), v.ToInteger ≠ none :=
    fun v hv => hall v (List.mem_of_mem_take hv)
  obtain ⟨h2, hs⟩ := storeElements_completes T data _ 0 h1 htake
  refine ⟨h2, ?_⟩
  unfold CreateExternalArrayWithArrayArg
  simp only [halloc, hs]

end gjstest
